import Mathlib

/-! # coredns-filter: response filtering

A shallow embedding of `filter.go` (package `coredns_filter`): the two
address-family preference filters, the bogus-address filter with its lazily
built IP sets, the request handler `ServeDNS` and the configuration entry
point `AddCommand`.

Go values are embedded as follows.

* `*dns.Msg` is a record holding the response code and the answer section;
  the in-place mutation `r.Answer = ...` becomes a record update and the
  returned pointer is the updated record.
* A `dns.RR` is a tagged record.  In `miekg/dns` the `Rrtype` of a record's
  header agrees with its Go type (`*dns.A` has `TypeA`, `*dns.AAAA` has
  `TypeAAAA`), which is what makes the type assertions `answer.(*dns.A)` in
  the source succeed; the embedding makes that agreement part of the type.
* `net.IP` is a byte slice of any length.
* Pointer receivers with mutable fields (`*BogusNxDomain`, `*Filter`) are
  passed and returned explicitly.
* A Go run-time panic is an explicit outcome.
* The request counter, the duration observation and the debug log lines of
  the source have no effect on messages, codes or errors and are left out.
-/

set_option autoImplicit false

namespace CorednsFilter

/-! ## DNS data model (`github.com/miekg/dns`) -/

/-- Record type `dns.TypeA`. -/
def TypeA : Nat := 1

/-- Record type `dns.TypeAAAA`. -/
def TypeAAAA : Nat := 28

/-- Response code `dns.RcodeSuccess`. -/
def RcodeSuccess : Int := 0

/-- Response code `dns.RcodeServerFailure`. -/
def RcodeServerFailure : Int := 2

/-- Response code `dns.RcodeNameError` (NXDOMAIN). -/
def RcodeNameError : Int := 3

/-- The Go type `net.IP`: a byte slice (4 bytes, 16 bytes, or malformed). -/
abbrev IP := List (Fin 256)

/-- An answer record `dns.RR`.  `A` is a `*dns.A` with its field `A`, `AAAA` a
`*dns.AAAA` with its field `AAAA`; every other Go record type is `other`,
carrying its header type and opaque data. -/
inductive RR where
  | A (name : String) (a : IP)
  | AAAA (name : String) (aaaa : IP)
  | other (rrtype : Nat) (h : rrtype ≠ 1 ∧ rrtype ≠ 28) (rdata : String)
  deriving DecidableEq

/-- The header field read by `answer.Header().Rrtype`. -/
def RR.Rrtype : RR → Nat
  | .A _ _ => TypeA
  | .AAAA _ _ => TypeAAAA
  | .other t _ _ => t

/-- The part of `dns.Msg` the plugin reads or writes (`Rcode`, `Answer`) and
the two sections it passes through untouched. -/
structure Msg where
  Rcode : Int
  Answer : List RR
  Ns : List RR
  Extra : List RR
  deriving DecidableEq

/-! ## Preference filters -/

/-- The first loop of `PreferIPv4.filter` and `PreferIPv6.filter`: walk the
answers, stop (`break`) once both flags are set, otherwise update the flag of
the record's type. -/
def scanFamilies : List RR → Bool × Bool → Bool × Bool
  | [], flags => flags
  | answer :: rest, (hasIPv4, hasIPv6) =>
    if hasIPv4 && hasIPv6 then (hasIPv4, hasIPv6)
    else if answer.Rrtype = TypeA then scanFamilies rest (true, hasIPv6)
    else if answer.Rrtype = TypeAAAA then scanFamilies rest (hasIPv4, true)
    else scanFamilies rest (hasIPv4, hasIPv6)

/-- The second loop of the preference filters: append to `finalAnswer` every
answer whose type differs from `drop`. -/
def keepLoop (drop : Nat) (answers : List RR) : List RR :=
  answers.foldl (fun finalAnswer answer =>
    if answer.Rrtype ≠ drop then finalAnswer ++ [answer] else finalAnswer) []

/-- Method `(*PreferIPv4).filter`. -/
def PreferIPv4.filter (r : Msg) : Bool × Msg :=
  let (hasIPv4, hasIPv6) := scanFamilies r.Answer (false, false)
  if hasIPv4 && hasIPv6 then
    (true, { r with Answer := keepLoop TypeAAAA r.Answer })
  else
    (false, r)

/-- Method `(*PreferIPv6).filter`. -/
def PreferIPv6.filter (r : Msg) : Bool × Msg :=
  let (hasIPv4, hasIPv6) := scanFamilies r.Answer (false, false)
  if hasIPv4 && hasIPv6 then
    (true, { r with Answer := keepLoop TypeA r.Answer })
  else
    (false, r)

/-- Whether some answer is an `A` record. -/
def hasA (answers : List RR) : Bool := answers.any (fun a => decide (a.Rrtype = TypeA))

/-- Whether some answer is an `AAAA` record. -/
def hasAAAA (answers : List RR) : Bool := answers.any (fun a => decide (a.Rrtype = TypeAAAA))

/-! ## IP addresses (`net/netip`) and IP sets (`go4.org/netipx`)

These libraries are outside the repository; the embedding follows their
documented behaviour.  An address is the invalid zero value, an IPv4 address
(32 bits) or an IPv6 address (128 bits, with an optional zone). -/

/-- The Go type `netip.Addr`. -/
inductive Addr where
  | zero
  | v4 (a : Nat)
  | v6 (a : Nat) (zone : String)
  deriving DecidableEq

/-- Method `Addr.IsValid`: false only for the zero `Addr`. -/
def Addr.IsValid : Addr → Bool
  | .zero => false
  | _ => true

/-- Method `Addr.Is4`. -/
def Addr.Is4 : Addr → Bool
  | .v4 _ => true
  | _ => false

/-- Method `Addr.Is6`: an IPv6 address, IPv4-mapped ones included. -/
def Addr.Is6 : Addr → Bool
  | .v6 _ _ => true
  | _ => false

/-- Method `Addr.Is4In6`: an IPv6 address of the form `::ffff:a.b.c.d`. -/
def Addr.Is4In6 : Addr → Bool
  | .v6 a _ => a / 2 ^ 32 == 0xffff
  | _ => false

/-- Method `Addr.BitLen`. -/
def Addr.BitLen : Addr → Nat
  | .zero => 0
  | .v4 _ => 32
  | .v6 _ _ => 128

/-- Method `Addr.Zone`. -/
def Addr.Zone : Addr → String
  | .v6 _ z => z
  | _ => ""

/-- Method `Addr.WithZone`: a no-op unless the address is IPv6. -/
def Addr.WithZone : Addr → String → Addr
  | .v6 a _, zone => .v6 a zone
  | ip, _ => ip

/-- Method `Addr.Unmap`: an IPv4-mapped IPv6 address becomes the IPv4 address
of its low 32 bits; every other address is returned as is. -/
def Addr.Unmap (ip : Addr) : Addr :=
  match ip with
  | .v6 a _ => if ip.Is4In6 then .v4 (a % 2 ^ 32) else ip
  | _ => ip

/-- The 128-bit (or 32-bit) value of an address. -/
def Addr.bits : Addr → Nat
  | .zero => 0
  | .v4 a => a
  | .v6 a _ => a

/-- The string comparison `za < zb` on zones (lexicographic). -/
def zoneLess (za zb : String) : Bool := decide (za.data < zb.data)

/-- Method `Addr.Compare`: by bit length first, then by value, then (IPv6) by
zone.  The result is `-1`, `0` or `1`. -/
def Addr.Compare (ip ip2 : Addr) : Int :=
  if ip.BitLen < ip2.BitLen then -1
  else if ip.BitLen > ip2.BitLen then 1
  else if ip.bits < ip2.bits then -1
  else if ip.bits > ip2.bits then 1
  else if ip.Is6 then
    (if zoneLess ip.Zone ip2.Zone then -1 else if zoneLess ip2.Zone ip.Zone then 1 else 0)
  else 0

/-- Method `Addr.Less`. -/
def Addr.Less (ip ip2 : Addr) : Bool := ip.Compare ip2 == -1

/-- Big-endian value of a byte slice. -/
def bytesToNat (bs : List (Fin 256)) : Nat :=
  bs.foldl (fun acc b => acc * 256 + b.val) 0

/-- Function `netip.AddrFromSlice`: 4 bytes give an IPv4 address, 16 bytes an
IPv6 address, any other length fails. -/
def AddrFromSlice (slice : IP) : Addr × Bool :=
  if slice.length = 4 then (.v4 (bytesToNat slice), true)
  else if slice.length = 16 then (.v6 (bytesToNat slice) "", true)
  else (.zero, false)

/-- Function `netipx.FromStdIP`: `AddrFromSlice` followed by `Unmap`. -/
def FromStdIP (std : IP) : Addr × Bool :=
  let (ret, ok) := AddrFromSlice std
  (ret.Unmap, ok)

/-- The Go type `netip.Prefix`: an address and `bitsPlusOne`, which is zero for
an invalid prefix and the prefix length plus one otherwise. -/
structure Prefix where
  ip : Addr
  bitsPlusOne : Nat
  deriving DecidableEq

/-- Method `Prefix.IsValid`. -/
def Prefix.IsValid (p : Prefix) : Bool := decide (0 < p.bitsPlusOne)

/-- Method `Prefix.Addr`. -/
def Prefix.Addr (p : Prefix) : Addr := p.ip

/-- Function `netip.PrefixFrom`. -/
def PrefixFrom (ip : Addr) (bits : Nat) : Prefix :=
  if ip.IsValid && decide (bits ≤ ip.BitLen) then ⟨ip.WithZone "", bits + 1⟩
  else ⟨ip.WithZone "", 0⟩

/-- Method `Prefix.Masked`, through `Addr.Prefix`: clear the host bits; an
invalid prefix, or one longer than the address, gives the zero `Prefix`. -/
def Prefix.Masked (p : Prefix) : Prefix :=
  match p.bitsPlusOne with
  | 0 => ⟨.zero, 0⟩
  | b + 1 =>
    match p.ip with
    | .zero => ⟨.zero, 0⟩
    | .v4 a => if 32 < b then ⟨.zero, 0⟩ else PrefixFrom (.v4 (a / 2 ^ (32 - b) * 2 ^ (32 - b))) b
    | .v6 a z =>
      if 128 < b then ⟨.zero, 0⟩ else PrefixFrom (.v6 (a / 2 ^ (128 - b) * 2 ^ (128 - b)) z) b

/-- Function `netipx.PrefixLastIP`: set every host bit. -/
def PrefixLastIP (p : Prefix) : Addr :=
  match p.bitsPlusOne with
  | 0 => .zero
  | b + 1 =>
    match p.ip with
    | .zero => .zero
    | .v4 a => .v4 (a ||| (2 ^ (32 - b) - 1))
    | .v6 a z => .v6 (a ||| (2 ^ (128 - b) - 1)) z

/-- The Go type `netipx.IPRange`: inclusive bounds. -/
structure IPRange where
  from_ : Addr
  to_ : Addr
  deriving DecidableEq

/-- Function `netipx.IPRangeFrom`: zones are stripped. -/
def IPRangeFrom (from_ to_ : Addr) : IPRange := ⟨from_.WithZone "", to_.WithZone ""⟩

/-- Method `IPRange.IsValid`. -/
def IPRange.IsValid (r : IPRange) : Bool :=
  r.from_.IsValid && decide (r.from_.BitLen = r.to_.BitLen) &&
    decide (r.from_.Zone = r.to_.Zone) && !(r.to_.Less r.from_)

/-- Method `IPRange.contains` (no validity check, `addr` has no zone). -/
def IPRange.contains (r : IPRange) (addr : Addr) : Bool :=
  decide (r.from_.Compare addr ≤ 0) && decide (r.to_.Compare addr ≥ 0)

/-- Function `netipx.RangeOfPrefix`. -/
def RangeOfPrefix (p : Prefix) : IPRange :=
  let p := p.Masked
  if !p.IsValid then ⟨.zero, .zero⟩ else IPRangeFrom p.Addr (PrefixLastIP p)

/-- The Go type `netipx.IPSetBuilder`, restricted to what `Add` and `AddPrefix`
touch: the list `in` of ranges added so far (the plugin never removes a range,
and it discards the accumulated errors).  The list is kept in the order of
addition; the library may sort and merge it in place when a set is built,
which does not change the addresses it covers, so the list stands for the
ranges of the builder up to that rearrangement. -/
structure IPSetBuilder where
  in_ : List IPRange
  deriving DecidableEq

/-- Method `IPSetBuilder.AddRange`: an invalid range is ignored. -/
def IPSetBuilder.AddRange (s : IPSetBuilder) (r : IPRange) : IPSetBuilder :=
  if !r.IsValid then s else ⟨s.in_ ++ [r]⟩

/-- Method `IPSetBuilder.Add`. -/
def IPSetBuilder.Add (s : IPSetBuilder) (ip : Addr) : IPSetBuilder :=
  if !ip.IsValid then s else s.AddRange (IPRangeFrom ip ip)

/-- Method `IPSetBuilder.AddPrefix`. -/
def IPSetBuilder.AddPrefix (s : IPSetBuilder) (p : Prefix) : IPSetBuilder :=
  if (RangeOfPrefix p).IsValid then s.AddRange (RangeOfPrefix p) else s

/-- The Go type `netipx.IPSet`: the ranges of the set.  The library keeps them
sorted and merged; the embedding keeps them as added, which denotes the same
set of addresses. -/
structure IPSet where
  rr : List IPRange
  deriving DecidableEq

/-- Method `IPSetBuilder.IPSet`: always returns a set (the error it may also
return is discarded by the caller).  The library sorts and merges the
builder's own list while doing so; the embedding returns the set and leaves
the builder's list as added, which covers the same addresses: membership, and
with it every result of `filter`, is the same. -/
def IPSetBuilder.IPSet (s : IPSetBuilder) : IPSet := ⟨s.in_⟩

/-- Method `IPSet.Contains`: false for an address with a zone, otherwise
whether one of the ranges contains the address. -/
def IPSet.Contains (s : IPSet) (ip : Addr) : Bool :=
  if ip.Zone ≠ "" then false else s.rr.any (fun r => r.contains ip)

/-! ## Bogus-address filter -/

/-- The Go struct `BogusNxDomain`; `none` is a nil pointer. -/
structure BogusNxDomain where
  ipv4Builder : Option IPSetBuilder
  ipv6Builder : Option IPSetBuilder
  ipv4Set : Option IPSet
  ipv6Set : Option IPSet
  deriving DecidableEq

/-- The lazy build at the head of `(*BogusNxDomain).filter`: when both cached
sets are nil, each non-nil builder is turned into a set. -/
def BogusNxDomain.build (f : BogusNxDomain) : BogusNxDomain :=
  if f.ipv4Set.isNone && f.ipv6Set.isNone then
    let f1 := match f.ipv4Builder with
      | some b => { f with ipv4Set := some b.IPSet }
      | none => f
    match f1.ipv6Builder with
    | some b => { f1 with ipv6Set := some b.IPSet }
    | none => f1
  else f

/-- The test `set != nil && ok && set.Contains(addr)` of the filter loop. -/
def inSet (set : Option IPSet) (std : IP) : Bool :=
  let (addr, ok) := FromStdIP std
  match set with
  | some s => ok && s.Contains addr
  | none => false

/-- Whether the loop of `(*BogusNxDomain).filter` drops the answer: the `switch`
on the record type with its two membership tests. -/
def BogusNxDomain.drops (f : BogusNxDomain) : RR → Bool
  | .A _ a => inSet f.ipv4Set a
  | .AAAA _ aaaa => inSet f.ipv6Set aaaa
  | .other _ _ _ => false

/-- The loop of `(*BogusNxDomain).filter`, on the state
`(hasBogusNxDomain, finalAnswer)`. -/
def BogusNxDomain.loop (f : BogusNxDomain) (answers : List RR) : Bool × List RR :=
  answers.foldl (fun (st : Bool × List RR) answer =>
    if f.drops answer then (true, st.2) else (st.1, st.2 ++ [answer])) (false, [])

/-- Method `(*BogusNxDomain).filter`; the third component is the receiver after
the call (its cached sets may have been built). -/
def BogusNxDomain.filter (f : BogusNxDomain) (r : Msg) : Bool × Msg × BogusNxDomain :=
  let f := f.build
  if f.ipv4Set.isNone && f.ipv6Set.isNone then (false, r, f)
  else
    let (hasBogusNxDomain, finalAnswer) := f.loop r.Answer
    let r := if hasBogusNxDomain then { r with Answer := finalAnswer } else r
    let r := if hasBogusNxDomain && r.Answer.length == 0 then
      { r with Rcode := RcodeNameError } else r
    (hasBogusNxDomain, r, f)

/-! ## Run-time outcomes -/

/-- The outcome of running Go code that may panic. -/
inductive Outcome (α : Type) where
  | ret (a : α)
  | panic (reason : String)

/-! ## The plugin: `Filter`, `ServeDNS` -/

/-- A value of the Go interface `FilterHandler`.  `nil` is the nil interface;
`bogus none` is an interface holding a nil `*BogusNxDomain`, `bogus (some f)`
one holding a pointer to the struct `f`.  The preference filters have no
fields, so the pointer they are called through does not matter. -/
inductive FilterHandler where
  | nil
  | preferIPv4
  | preferIPv6
  | bogus (p : Option BogusNxDomain)
  deriving DecidableEq

/-- The interface comparison `h == nil`: true only for the nil interface. -/
def FilterHandler.isNil : FilterHandler → Bool
  | .nil => true
  | _ => false

/-- The interface method call `h.filter(r)`.  It panics on the nil interface,
and on a nil `*BogusNxDomain`, whose method reads `f.ipv4Set`.  The handler is
returned with the receiver's state after the call. -/
def FilterHandler.filter : FilterHandler → Msg → Outcome (Bool × Msg × FilterHandler)
  | .nil, _ => .panic "invalid memory address or nil pointer dereference"
  | .preferIPv4, r => .ret ((PreferIPv4.filter r).1, (PreferIPv4.filter r).2, .preferIPv4)
  | .preferIPv6, r => .ret ((PreferIPv6.filter r).1, (PreferIPv6.filter r).2, .preferIPv6)
  | .bogus none, _ => .panic "invalid memory address or nil pointer dereference"
  | .bogus (some f), r =>
    .ret ((f.filter r).1, (f.filter r).2.1, .bogus (some (f.filter r).2.2))

/-- What a downstream `plugin.Handler` does with the response writer it is
given: it returns a code and an error, or it calls `w.WriteMsg(m)` and goes on
according to the error that call returned. -/
inductive Prog where
  | done (rcode : Int) (err : Option String)
  | writeMsg (m : Msg) (next : Option String → Prog)

/-- A downstream handler: its `ServeDNS`, as a function of the request. -/
abbrev Handler := Msg → Prog

/-- Run a handler program against a writer with state `σ` whose `WriteMsg` is
`write`; returns the writer's final state, the code and the error. -/
def Prog.run {σ : Type} (write : σ → Msg → σ × Option String) :
    Prog → σ → σ × Int × Option String
  | .done rcode err, w => (w, rcode, err)
  | .writeMsg m next, w => (next (write w m).2).run write (write w m).1

/-- The real response sink `dns.ResponseWriter`: the messages passed to its
`WriteMsg` so far, and the error each call returns (given the history). -/
structure ResponseWriter where
  written : List Msg
  result : List Msg → Msg → Option String

/-- Method `WriteMsg` of the real sink. -/
def ResponseWriter.WriteMsg (w : ResponseWriter) (m : Msg) : ResponseWriter × Option String :=
  ({ w with written := w.written ++ [m] }, w.result w.written m)

/-- The capturing writer `nonwriter.Writer`: the wrapped sink and the field
`Msg`. -/
structure NonWriter where
  inner : ResponseWriter
  Msg : Option Msg

/-- Function `nonwriter.New`. -/
def NonWriter.New (w : ResponseWriter) : NonWriter := ⟨w, none⟩

/-- Method `(*nonwriter.Writer).WriteMsg`: record the message, write nothing. -/
def NonWriter.WriteMsg (nw : NonWriter) (res : CorednsFilter.Msg) : NonWriter × Option String :=
  ({ nw with Msg := some res }, none)

/-- The Go struct `Filter`. -/
structure Filter where
  Next : Option Handler
  Prefer : FilterHandler
  BugosNxDomain : FilterHandler

/-- Function `NewFilterHandler`. -/
def NewFilterHandler : Filter :=
  { Next := none, Prefer := .nil, BugosNxDomain := .nil }

/-- Method `(*Filter).Name`. -/
def Filter.Name (_m : Filter) : String := "filter"

/-- Function `plugin.NextOrFailure`: call the next handler if there is one,
otherwise fail with `RcodeServerFailure`. -/
def NextOrFailure {σ : Type} (name : String) (next : Option Handler)
    (write : σ → Msg → σ × Option String) (w : σ) (r : Msg) : σ × Int × Option String :=
  match next with
  | some h => (h r).run write w
  | none => (w, RcodeServerFailure, some ("plugin/" ++ name ++ ": no next plugin found"))

/-- What a call of `ServeDNS` leaves behind: the plugin (its bogus filter may
have built its sets), the real sink, and the returned code and error. -/
structure ServeResult where
  m : Filter
  w : ResponseWriter
  rcode : Int
  err : Option String

/-- Method `(*Filter).ServeDNS`. -/
def Filter.ServeDNS (m : Filter) (w : ResponseWriter) (r : Msg) : Outcome ServeResult :=
  if m.Prefer.isNil && m.BugosNxDomain.isNil then
    let (w, rcode, err) := NextOrFailure m.Name m.Next ResponseWriter.WriteMsg w r
    .ret ⟨m, w, rcode, err⟩
  else
    let nw := NonWriter.New w
    let (nw, rcode, err) := NextOrFailure m.Name m.Next NonWriter.WriteMsg nw r
    if err.isSome then .ret ⟨m, nw.inner, rcode, err⟩
    else
      match nw.Msg with
      | none => .ret ⟨m, nw.inner, 1, some "no answer received"⟩
      | some r =>
        let afterPrefer : Outcome (Msg × Filter) :=
          if !m.Prefer.isNil then
            match m.Prefer.filter r with
            | .ret (_, r, h) => .ret (r, { m with Prefer := h })
            | .panic e => .panic e
          else .ret (r, m)
        match afterPrefer with
        | .panic e => .panic e
        | .ret (r, m) =>
          let afterBogus : Outcome (Msg × Filter) :=
            if !m.BugosNxDomain.isNil then
              match m.BugosNxDomain.filter r with
              | .ret (_, r, h) => .ret (r, { m with BugosNxDomain := h })
              | .panic e => .panic e
            else .ret (r, m)
          match afterBogus with
          | .panic e => .panic e
          | .ret (r, m) =>
            let (w, err) := nw.inner.WriteMsg r
            if err.isSome then .ret ⟨m, w, 1, err⟩
            else .ret ⟨m, w, 0, none⟩

/-! ## Configuration: `AddCommand` -/

/-- The standard-library functions the configuration code calls and the
repository does not contain: `unicode.ToLower` on runes, `netip.ParseAddr` and
`netip.ParsePrefix` (`none` is a non-nil error). -/
structure Env where
  unicodeToLower : Char → Char
  ParseAddr : String → Option Addr
  ParsePrefix : String → Option Prefix

/-- Function `strings.ToLower`: on an ASCII-only string the letters `A`..`Z` are
lowered; any other string is mapped rune by rune through `unicode.ToLower`. -/
def ToLower (env : Env) (s : String) : String :=
  if s.data.all (fun c => decide (c.toNat < 128)) then String.mk (s.data.map Char.toLower)
  else String.mk (s.data.map env.unicodeToLower)

/-- The verb `%v` on a `[]string`. -/
def fmtStrings (options : List String) : String := "[" ++ " ".intercalate options ++ "]"

/-- Method `(*Filter).AddPreferHandler`. -/
def Filter.AddPreferHandler (env : Env) (m : Filter) (options : List String) :
    Filter × Option String :=
  match options with
  | [o] =>
    if ToLower env o = "none" then (m, none)
    else if ToLower env o = "ipv4" then ({ m with Prefer := .preferIPv4 }, none)
    else if ToLower env o = "ipv6" then ({ m with Prefer := .preferIPv6 }, none)
    else (m, some "command prefer must be set [none/ipv4/ipv6]")
  | _ => (m, some "command prefer must be set [none/ipv4/ipv6]")

/-- Function `mutableIPv4Builder`: the handle with its IPv4 builder allocated,
and that builder. -/
def mutableIPv4Builder (handle : BogusNxDomain) : BogusNxDomain × IPSetBuilder :=
  match handle.ipv4Builder with
  | none => ({ handle with ipv4Builder := some ⟨[]⟩ }, ⟨[]⟩)
  | some b => (handle, b)

/-- Function `mutableIPv6Builder`. -/
def mutableIPv6Builder (handle : BogusNxDomain) : BogusNxDomain × IPSetBuilder :=
  match handle.ipv6Builder with
  | none => ({ handle with ipv6Builder := some ⟨[]⟩ }, ⟨[]⟩)
  | some b => (handle, b)

/-- The error of `AddBogusNxDomainHandler` for the token `opt`. -/
def cannotParse (opt : String) : String :=
  "command bogus-nxdomain can not parse ip address " ++ opt

/-- The statement `mutableIPv4Builder(handle).Add(ip)`. -/
def addIPv4 (handle : BogusNxDomain) (ip : Addr) : BogusNxDomain :=
  let (handle, builder) := mutableIPv4Builder handle
  { handle with ipv4Builder := some (builder.Add ip) }

/-- The statement `mutableIPv6Builder(handle).Add(ip)`. -/
def addIPv6 (handle : BogusNxDomain) (ip : Addr) : BogusNxDomain :=
  let (handle, builder) := mutableIPv6Builder handle
  { handle with ipv6Builder := some (builder.Add ip) }

/-- The statement `mutableIPv4Builder(handle).AddPrefix(p)`. -/
def addPrefixIPv4 (handle : BogusNxDomain) (p : Prefix) : BogusNxDomain :=
  let (handle, builder) := mutableIPv4Builder handle
  { handle with ipv4Builder := some (builder.AddPrefix p) }

/-- The statement `mutableIPv6Builder(handle).AddPrefix(p)`. -/
def addPrefixIPv6 (handle : BogusNxDomain) (p : Prefix) : BogusNxDomain :=
  let (handle, builder) := mutableIPv6Builder handle
  { handle with ipv6Builder := some (builder.AddPrefix p) }

/-- One iteration of the loop of `AddBogusNxDomainHandler`: the handle after
it, and the error if the iteration returns one. -/
def addOption (env : Env) (handle : BogusNxDomain) (opt : String) :
    BogusNxDomain × Option String :=
  match env.ParseAddr opt with
  | some tryParseIp =>
    if tryParseIp.Is4 then (addIPv4 handle tryParseIp, none)
    else if tryParseIp.Is6 then (addIPv6 handle tryParseIp, none)
    else (handle, some (cannotParse opt))
  | none =>
    match env.ParsePrefix opt with
    | some tryParseIpPrefix =>
      if tryParseIpPrefix.Addr.Is4 then (addPrefixIPv4 handle tryParseIpPrefix, none)
      else if tryParseIpPrefix.Addr.Is6 then (addPrefixIPv6 handle tryParseIpPrefix, none)
      else (handle, some (cannotParse opt))
    | none => (handle, some (cannotParse opt))

/-- The loop of `AddBogusNxDomainHandler`: it returns at the first token that
yields an error, keeping what the earlier tokens added. -/
def addOptions (env : Env) : BogusNxDomain → List String → BogusNxDomain × Option String
  | handle, [] => (handle, none)
  | handle, opt :: rest =>
    match addOption env handle opt with
    | (handle, some err) => (handle, some err)
    | (handle, none) => addOptions env handle rest

/-- Method `(*Filter).AddBogusNxDomainHandler`.  The type assertion
`m.BugosNxDomain.(*BogusNxDomain)` has the single-value form, which panics
unless the interface holds a `*BogusNxDomain` (possibly a nil one). -/
def Filter.AddBogusNxDomainHandler (env : Env) (m : Filter) (options : List String) :
    Outcome (Filter × Option String) :=
  if options.length = 0 then .ret (m, none)
  else
    match m.BugosNxDomain with
    | .bogus p =>
      let handle : BogusNxDomain := match p with
        | some h => h
        | none => ⟨none, none, none, none⟩
      match addOptions env handle options with
      | (handle, some err) => .ret ({ m with BugosNxDomain := .bogus (some handle) }, some err)
      | (handle, none) =>
        let handle : BogusNxDomain := { handle with ipv4Set := none, ipv6Set := none }
        .ret ({ m with BugosNxDomain := .bogus (some handle) }, none)
    | .nil =>
      .panic "interface conversion: interface is nil, not *coredns_filter.BogusNxDomain"
    | _ =>
      .panic "interface conversion: interface is not *coredns_filter.BogusNxDomain"

/-- Method `(*Filter).AddCommand`. -/
def Filter.AddCommand (env : Env) (m : Filter) (cmd : String) (options : List String) :
    Outcome (Filter × Option String) :=
  if ToLower env cmd = "prefer" then
    .ret (m.AddPreferHandler env options)
  else if ToLower env cmd = "bogus-nxdomain" then
    m.AddBogusNxDomainHandler env options
  else
    .ret (m, some ("invalid command " ++ cmd ++ " with options " ++ fmtStrings options))

/-! ## Data of the repository's tests (`filter_test.go`) -/

/-- Function `net.IPv4`: the 16-byte form of an IPv4 address, which is what the
test helper `test.A` (through `net.ParseIP`) stores in a record. -/
def IPv4 (a b c d : Fin 256) : IP := [0, 0, 0, 0, 0, 0, 0, 0, 0, 0, 0xff, 0xff, a, b, c, d]

/-- The address `fe80::2896:acff:fe37:1912`. -/
def ip_fe80_1912 : IP :=
  [0xfe, 0x80, 0, 0, 0, 0, 0, 0, 0x28, 0x96, 0xac, 0xff, 0xfe, 0x37, 0x19, 0x12]

/-- The address `fe80::a236:9f96:507:3f9b`. -/
def ip_fe80_3f9b : IP :=
  [0xfe, 0x80, 0, 0, 0, 0, 0, 0, 0xa2, 0x36, 0x9f, 0x96, 0x05, 0x07, 0x3f, 0x9b]

/-- The answers of the two `prefer` test cases. -/
def preferAnswers : List RR :=
  [.A "example.org." (IPv4 127 0 0 1), .A "example.org." (IPv4 172 16 10 1),
   .AAAA "example.org." ip_fe80_1912, .AAAA "example.org." ip_fe80_3f9b]

/-- The downstream message of the two `prefer` test cases. -/
def preferMsg : Msg := ⟨RcodeSuccess, preferAnswers, [], []⟩

/-- A message with answers of one family only. -/
def onlyAMsg : Msg :=
  ⟨RcodeSuccess, [.A "example.org." (IPv4 127 0 0 1), .other 5 (by decide) "alias.example.org."],
    [], []⟩

/-- The answers of the second `bogus-nxdomain` test case. -/
def bogusAllAnswers : List RR :=
  [.A "example.org." (IPv4 172 16 1 1), .AAAA "example.org." ip_fe80_1912]

/-- The bogus filter of the second `bogus-nxdomain` test case, as the command
`bogus-nxdomain 172.16.1.1 fe80::/8` builds it on an empty handle: the address
`172.16.1.1` added to the IPv4 builder, the prefix `fe80::/8` to the IPv6
builder. -/
def bogusAllFilter : BogusNxDomain :=
  addPrefixIPv6 (addIPv4 ⟨none, none, none, none⟩ (.v4 0xAC100101))
    (PrefixFrom (.v6 0xfe800000000000000000000000000000 "") 8)

/-- A downstream handler like `testHandler` of the tests: it writes one message
with the given code and answers, and returns `0, nil`. -/
def testHandler (rcode : Int) (answers : List RR) : Handler :=
  fun _ => .writeMsg ⟨rcode, answers, [], []⟩ (fun _ => .done 0 none)

/-- A real sink on which nothing has been written and every write succeeds. -/
def okSink : ResponseWriter := ⟨[], fun _ _ => none⟩

/-- The request of `makeTestCall` (its question section is not modelled). -/
def testRequest : Msg := ⟨RcodeSuccess, [], [], []⟩

/-- The address `::ffff:1.2.3.4` as the 16 bytes an `AAAA` record carries. -/
def ip_mapped_1234 : IP := [0, 0, 0, 0, 0, 0, 0, 0, 0, 0, 0xff, 0xff, 1, 2, 3, 4]

/-- The value `netip.ParseAddr("::ffff:1.2.3.4")` returns: an IPv6 address
(`Is6` holds, `Is4` does not). -/
def addr_mapped_1234 : Addr := .v6 0xffff01020304 ""

/-- An environment whose `ParseAddr` knows the one token `::ffff:1.2.3.4`. -/
def mappedEnv : Env where
  unicodeToLower := id
  ParseAddr := fun s => if s = "::ffff:1.2.3.4" then some addr_mapped_1234 else none
  ParsePrefix := fun _ => none

/-- A plugin whose bogus handle is installed and empty. -/
def emptyBogusFilter : Filter :=
  { Next := none, Prefer := .nil, BugosNxDomain := .bogus (some ⟨none, none, none, none⟩) }

/-- What `ServeDNS` applies to the captured message: the handler's `filter` if
the handler is configured, nothing otherwise. -/
def applyFilter (h : FilterHandler) (r : Msg) : Msg :=
  match h with
  | .nil => r
  | .preferIPv4 => (PreferIPv4.filter r).2
  | .preferIPv6 => (PreferIPv6.filter r).2
  | .bogus (some f) => (f.filter r).2.1
  | .bogus none => r

/-- The plugin of the second `bogus-nxdomain` test case: `testHandler` as next
handler, no preference filter, the bogus set `172.16.1.1`, `fe80::/8`. -/
def bogusAllPlugin : Filter :=
  { Next := some (testHandler RcodeSuccess bogusAllAnswers), Prefer := .nil,
    BugosNxDomain := .bogus (some bogusAllFilter) }

/-- The same plugin with `prefer ipv4` configured as well. -/
def preferThenBogusPlugin : Filter :=
  { Next := some (testHandler RcodeSuccess bogusAllAnswers), Prefer := .preferIPv4,
    BugosNxDomain := .bogus (some bogusAllFilter) }

/-- A message with the single answer `AAAA ::ffff:1.2.3.4`. -/
def mappedMsg : Msg := ⟨RcodeSuccess, [.AAAA "example.org." ip_mapped_1234], [], []⟩

/-! ## Notions used to state the configuration properties -/

/-- Equality of two strings up to the case of the ASCII letters. -/
def eqFold (a b : String) : Bool :=
  decide (a.data.map Char.toLower = b.data.map Char.toLower)

/-- A token `bogus-nxdomain` accepts: it parses as an IPv4 or IPv6 address, or,
failing that, as a prefix of an IPv4 or IPv6 address. -/
def validToken (env : Env) (opt : String) : Bool :=
  match env.ParseAddr opt with
  | some ip => ip.Is4 || ip.Is6
  | none =>
    match env.ParsePrefix opt with
    | some p => p.Addr.Is4 || p.Addr.Is6
    | none => false

/-- A token that parses neither as an address nor as a prefix. -/
def unparsable (env : Env) (opt : String) : Bool :=
  (env.ParseAddr opt).isNone && (env.ParsePrefix opt).isNone

/-- The ranges a builder holds; a builder that was never allocated holds none. -/
def builderRanges (b : Option IPSetBuilder) : List IPRange :=
  match b with
  | none => []
  | some b => b.in_

/-- The range an IPv4 token stands for: the address itself, or the range of the
prefix; a token of the other family, or an unparsable one, stands for none. -/
def tokenRangesV4 (env : Env) (opt : String) : List IPRange :=
  match env.ParseAddr opt with
  | some ip => if ip.Is4 then [IPRangeFrom ip ip] else []
  | none =>
    match env.ParsePrefix opt with
    | some p => if p.Addr.Is4 && (RangeOfPrefix p).IsValid then [RangeOfPrefix p] else []
    | none => []

/-- The range an IPv6 token stands for. -/
def tokenRangesV6 (env : Env) (opt : String) : List IPRange :=
  match env.ParseAddr opt with
  | some ip => if !ip.Is4 && ip.Is6 then [IPRangeFrom ip ip] else []
  | none =>
    match env.ParsePrefix opt with
    | some p =>
      if !p.Addr.Is4 && p.Addr.Is6 && (RangeOfPrefix p).IsValid then [RangeOfPrefix p] else []
    | none => []

/-- The two assignments `handle.ipv4Set = nil; handle.ipv6Set = nil`. -/
def clearSets (h : BogusNxDomain) : BogusNxDomain :=
  { h with ipv4Set := none, ipv6Set := none }

/-- The handle a `bogus-nxdomain` call with accepted tokens leaves: untouched
for an empty token list, otherwise the tokens added and the cached sets
cleared. -/
def afterValid (env : Env) (f : BogusNxDomain) (options : List String) : BogusNxDomain :=
  if options = [] then f else clearSets (addOptions env f options).1

/-- The handle after a run of `filter` calls, one per message. -/
def filterCalls (f : BogusNxDomain) (rs : List Msg) : BogusNxDomain :=
  rs.foldl (fun f r => (f.filter r).2.2) f

/-! ## Further concrete data -/

/-- An environment that parses no token at all; `strings.ToLower` on ASCII
strings does not depend on the environment. -/
def plainEnv : Env := ⟨id, fun _ => none, fun _ => none⟩

/-- An environment whose `ParseAddr` knows `172.16.1.1` and `10.0.0.1`. -/
def tableEnv : Env where
  unicodeToLower := id
  ParseAddr := fun s =>
    if s = "172.16.1.1" then some (.v4 0xAC100101)
    else if s = "10.0.0.1" then some (.v4 0x0A000001)
    else none
  ParsePrefix := fun _ => none

/-- The single-address range `172.16.1.1`. -/
def range_172_16_1_1 : IPRange := ⟨.v4 0xAC100101, .v4 0xAC100101⟩

/-- The single-address range `10.0.0.1`. -/
def range_10_0_0_1 : IPRange := ⟨.v4 0x0A000001, .v4 0x0A000001⟩

/-- A message with the single answer `A 10.0.0.1`. -/
def msg_10_0_0_1 : Msg := ⟨RcodeSuccess, [.A "example.org." (IPv4 10 0 0 1)], [], []⟩

/-- A downstream handler that fails without writing. -/
def failingHandler : Handler := fun _ => .done RcodeServerFailure (some "upstream failed")

/-- A downstream handler that succeeds without writing. -/
def silentHandler : Handler := fun _ => .done RcodeSuccess none

/-- The address `2606:4700:3034::ac43:dece`. -/
def ip_2606_dece : IP :=
  [0x26, 0x06, 0x47, 0x00, 0x30, 0x34, 0, 0, 0, 0, 0, 0, 0xac, 0x43, 0xde, 0xce]

/-- Answers with one `A` record inside the bogus set `172.16.1.1` and one
`AAAA` record outside of it. -/
def orderAnswers : List RR :=
  [.A "example.org." (IPv4 172 16 1 1), .AAAA "example.org." ip_2606_dece]

/-- The message carrying `orderAnswers`. -/
def orderMsg : Msg := ⟨RcodeSuccess, orderAnswers, [], []⟩

/-- The bogus handle holding the single address `172.16.1.1`. -/
def bogusOneFilter : BogusNxDomain := addIPv4 ⟨none, none, none, none⟩ (.v4 0xAC100101)

/-- A plugin with `prefer ipv4` and the bogus set `172.16.1.1`, whose next
handler answers with `orderAnswers`. -/
def orderPlugin : Filter :=
  { Next := some (testHandler RcodeSuccess orderAnswers), Prefer := .preferIPv4,
    BugosNxDomain := .bogus (some bogusOneFilter) }

/-! ## States reachable from a fresh plugin -/

/-- What can be done to a plugin: an `AddCommand` call, the assignment of the
next handler (as `setup` does), a `ServeDNS` call, and a direct call of the
`filter` method of the preference slot or of the bogus slot. -/
inductive Step where
  | command (cmd : String) (options : List String)
  | setNext (next : Option Handler)
  | serve (w : ResponseWriter) (r : Msg)
  | preferFilter (r : Msg)
  | bogusFilter (r : Msg)

/-- The plugin after one step; a call that returns an error still returns, and
leaves the plugin as the call left it. -/
def stepFilter (env : Env) (m : Filter) : Step → Outcome Filter
  | .command cmd options =>
    match m.AddCommand env cmd options with
    | .ret (m', _) => .ret m'
    | .panic e => .panic e
  | .setNext next => .ret { m with Next := next }
  | .serve w r =>
    match m.ServeDNS w r with
    | .ret res => .ret res.m
    | .panic e => .panic e
  | .preferFilter r =>
    match m.Prefer.filter r with
    | .ret (_, _, h) => .ret { m with Prefer := h }
    | .panic e => .panic e
  | .bogusFilter r =>
    match m.BugosNxDomain.filter r with
    | .ret (_, _, h) => .ret { m with BugosNxDomain := h }
    | .panic e => .panic e

/-- The plugin after a sequence of steps, unless one of them panics. -/
def runSteps (env : Env) : Filter → List Step → Outcome Filter
  | m, [] => .ret m
  | m, s :: rest =>
    match stepFilter env m s with
    | .ret m' => runSteps env m' rest
    | .panic e => .panic e

/-- A cached set is nil or is the set of its builder. -/
def cacheConsistent (f : BogusNxDomain) : Bool :=
  (match f.ipv4Set with
    | none => true
    | some s => decide (f.ipv4Builder.map IPSetBuilder.IPSet = some s)) &&
  (match f.ipv6Set with
    | none => true
    | some s => decide (f.ipv6Builder.map IPSetBuilder.IPSet = some s))

/-- The cache invariant of a plugin: the handle in its bogus slot, if there is
one, has consistent cached sets. -/
def Filter.cacheInvariant (m : Filter) : Bool :=
  match m.BugosNxDomain with
  | .bogus (some f) => cacheConsistent f
  | _ => true

/-- A configuration and serving sequence on a fresh plugin: `prefer ipv4`,
`bogus-nxdomain` without tokens, the unknown command `example.org` (which
returns an error), the next handler set, one request served. -/
def sampleSteps : List Step :=
  [.command "prefer" ["ipv4"], .command "bogus-nxdomain" [], .command "example.org" [],
   .setNext (some (testHandler RcodeSuccess preferAnswers)), .serve okSink testRequest]

/-! ## Lemmas on the preference filters -/

theorem scanFamilies_eq (answers : List RR) (h4 h6 : Bool) :
    scanFamilies answers (h4, h6) = (h4 || hasA answers, h6 || hasAAAA answers) ∨
      (scanFamilies answers (h4, h6) = (true, true) ∧
        (h4 || hasA answers) = true ∧ (h6 || hasAAAA answers) = true) := by
  induction answers generalizing h4 h6 with
  | nil => left; simp [scanFamilies, hasA, hasAAAA]
  | cons a rest ih =>
    unfold scanFamilies
    by_cases hb : (h4 && h6) = true
    · right
      simp only [Bool.and_eq_true] at hb
      simp [hb.1, hb.2]
    · simp only [hb, if_false]
      by_cases hA : a.Rrtype = TypeA
      · have hne : a.Rrtype ≠ TypeAAAA := by rw [hA]; decide
        simp only [hA, if_true]
        rcases ih true h6 with h | ⟨h1, _, h3⟩
        · left
          rw [h]
          simp [hasA, hasAAAA, hA, show ¬ (TypeA = TypeAAAA) by decide]
        · right
          refine ⟨h1, by simp [hasA, hA], ?_⟩
          simpa [hasAAAA, hne] using h3
      · simp only [hA, if_false]
        by_cases h6' : a.Rrtype = TypeAAAA
        · simp only [h6', if_true]
          rcases ih h4 true with h | ⟨h1, h2, _⟩
          · left
            rw [h]
            simp [hasA, hasAAAA, h6', show ¬ (TypeAAAA = TypeA) by decide]
          · right
            refine ⟨h1, ?_, by simp [hasAAAA, h6']⟩
            simpa [hasA, hA] using h2
        · simp only [h6', if_false]
          rcases ih h4 h6 with h | ⟨h1, h2, h3⟩
          · left
            rw [h]
            simp [hasA, hasAAAA, hA, h6']
          · right
            refine ⟨h1, ?_, ?_⟩
            · simpa [hasA, hA] using h2
            · simpa [hasAAAA, h6'] using h3

/-- The presence scan computes exactly "an `A` record occurs" and "an `AAAA`
record occurs" whenever it matters: the conjunction of its two flags. -/
theorem scanFamilies_both (answers : List RR) :
    ((scanFamilies answers (false, false)).1 && (scanFamilies answers (false, false)).2)
      = (hasA answers && hasAAAA answers) := by
  rcases scanFamilies_eq answers false false with h | ⟨h1, h2, h3⟩
  · rw [h]; simp
  · rw [h1]
    simp only [Bool.false_or] at h2 h3
    simp [h2, h3]

theorem keepLoop_aux (drop : Nat) (answers acc : List RR) :
    answers.foldl (fun finalAnswer answer =>
      if answer.Rrtype ≠ drop then finalAnswer ++ [answer] else finalAnswer) acc
      = acc ++ answers.filter (fun a => decide (a.Rrtype ≠ drop)) := by
  induction answers generalizing acc with
  | nil => simp
  | cons a rest ih =>
    simp only [List.foldl_cons]
    rw [ih]
    by_cases h : a.Rrtype = drop
    · simp [h]
    · simp [h, List.filter_cons]

/-- The append loop is the order-preserving removal of every record of the
dropped type. -/
theorem keepLoop_eq_filter (drop : Nat) (answers : List RR) :
    keepLoop drop answers = answers.filter (fun a => decide (a.Rrtype ≠ drop)) := by
  unfold keepLoop
  rw [keepLoop_aux]
  simp

theorem PreferIPv4_filter_eq (r : Msg) :
    PreferIPv4.filter r =
      if hasA r.Answer && hasAAAA r.Answer then
        (true, { r with Answer := r.Answer.filter (fun a => decide (a.Rrtype ≠ TypeAAAA)) })
      else (false, r) := by
  have h := scanFamilies_both r.Answer
  unfold PreferIPv4.filter
  rw [keepLoop_eq_filter]
  simp only [] at h ⊢
  rw [h]

theorem PreferIPv6_filter_eq (r : Msg) :
    PreferIPv6.filter r =
      if hasA r.Answer && hasAAAA r.Answer then
        (true, { r with Answer := r.Answer.filter (fun a => decide (a.Rrtype ≠ TypeA)) })
      else (false, r) := by
  have h := scanFamilies_both r.Answer
  unfold PreferIPv6.filter
  rw [keepLoop_eq_filter]
  simp only [] at h ⊢
  rw [h]

/-! ## Lemmas on the bogus-address filter -/

theorem bogus_loop_aux (f : BogusNxDomain) (answers : List RR) (has : Bool) (acc : List RR) :
    answers.foldl (fun (st : Bool × List RR) answer =>
      if f.drops answer then (true, st.2) else (st.1, st.2 ++ [answer])) (has, acc)
      = (has || answers.any f.drops, acc ++ answers.filter (fun a => !f.drops a)) := by
  induction answers generalizing has acc with
  | nil => simp
  | cons a rest ih =>
    simp only [List.foldl_cons]
    by_cases h : f.drops a = true
    · simp [h, ih]
    · simp only [Bool.not_eq_true] at h
      simp [h, ih]

/-- The filter loop computes "some answer is dropped" and the order-preserving
list of the answers that are not. -/
theorem bogus_loop_eq (f : BogusNxDomain) (answers : List RR) :
    f.loop answers = (answers.any f.drops, answers.filter (fun a => !f.drops a)) := by
  unfold BogusNxDomain.loop
  rw [bogus_loop_aux]
  simp

/-- With both cached sets nil nothing is dropped. -/
theorem drops_of_no_sets (f : BogusNxDomain) (h4 : f.ipv4Set = none) (h6 : f.ipv6Set = none)
    (a : RR) : f.drops a = false := by
  cases a <;> simp [BogusNxDomain.drops, inSet, h4, h6]

/-- The lazy build does nothing on a handle it has already been applied to. -/
theorem build_build (f : BogusNxDomain) : f.build.build = f.build := by
  rcases f with ⟨_ | b4, _ | b6, _ | s4, _ | s6⟩ <;> rfl

/-- The bogus filter in closed form: with `g` the handle after the lazy build,
the answers `g` drops are removed (and the code is set to name-error if none
is left) when there is one, and the message is returned as is otherwise. -/
theorem bogus_filter_eq (f : BogusNxDomain) (r : Msg) :
    f.filter r =
      if r.Answer.any f.build.drops then
        (true,
          { r with
            Answer := r.Answer.filter (fun a => !f.build.drops a)
            Rcode := if (r.Answer.filter (fun a => !f.build.drops a)).length = 0
              then RcodeNameError else r.Rcode },
          f.build)
      else (false, r, f.build) := by
  unfold BogusNxDomain.filter
  simp only [bogus_loop_eq]
  by_cases hn : (f.build.ipv4Set.isNone && f.build.ipv6Set.isNone) = true
  · have h := hn
    simp only [Bool.and_eq_true, Option.isNone_iff_eq_none] at h
    have hd : r.Answer.any f.build.drops = false := by
      rw [List.any_eq_false]
      intro a _
      simp [drops_of_no_sets f.build h.1 h.2 a]
    simp [hn, hd]
  · by_cases hd : r.Answer.any f.build.drops = true
    · by_cases hl : (r.Answer.filter (fun a => !f.build.drops a)).length = 0
      · simp [hn, hd, hl]
      · simp [hn, hd, hl]
    · simp only [Bool.not_eq_true] at hd
      simp [hn, hd]

theorem any_drops_iff_shorter (f : BogusNxDomain) (answers : List RR) :
    answers.any f.drops = true ↔
      (answers.filter (fun a => !f.drops a)).length < answers.length := by
  rw [List.length_filter_lt_length_iff_exists]
  simp

/-! ## Preference filters: contract -/

theorem hasA_iff (answers : List RR) :
    hasA answers = true ↔ ∃ a ∈ answers, a.Rrtype = TypeA := by
  simp [hasA]

theorem hasAAAA_iff (answers : List RR) :
    hasAAAA answers = true ↔ ∃ a ∈ answers, a.Rrtype = TypeAAAA := by
  simp [hasAAAA]

theorem filter_keeps_family (keep drop : Nat) (hne : keep ≠ drop) (answers : List RR) :
    (answers.filter (fun a => decide (a.Rrtype ≠ drop))).filter
        (fun a => decide (a.Rrtype = keep))
      = answers.filter (fun a => decide (a.Rrtype = keep)) := by
  rw [List.filter_filter]
  congr 1
  funext a
  by_cases h : a.Rrtype = keep
  · simp [h, hne]
  · simp [h]

/-- Both preference filters leave a message alone unless its answers hold an
`A` and an `AAAA` record. -/
theorem prefer_unchanged_of_not_both (r : Msg)
    (h : ¬ ((∃ a ∈ r.Answer, a.Rrtype = TypeA) ∧ (∃ a ∈ r.Answer, a.Rrtype = TypeAAAA))) :
    PreferIPv4.filter r = (false, r) ∧ PreferIPv6.filter r = (false, r) := by
  have hb : (hasA r.Answer && hasAAAA r.Answer) = false := by
    rw [Bool.eq_false_iff]
    intro hc
    simp only [Bool.and_eq_true] at hc
    exact h ⟨(hasA_iff _).1 hc.1, (hasAAAA_iff _).1 hc.2⟩
  constructor
  · rw [PreferIPv4_filter_eq, hb]; simp
  · rw [PreferIPv6_filter_eq, hb]; simp

/-- C1: when the answers hold both an `A` and an `AAAA` record,
`PreferIPv4.filter` reports a change and returns the message with every `AAAA`
answer removed and nothing else touched: no `AAAA` record is left, the `A`
records are the original ones in order, every other record keeps its relative
position, and the response code is the input's.  `PreferIPv6.filter` does the
same with `A` removed. -/
theorem C1_prefer_removes_other_family (r : Msg)
    (hA : ∃ a ∈ r.Answer, a.Rrtype = TypeA)
    (hAAAA : ∃ a ∈ r.Answer, a.Rrtype = TypeAAAA) :
    (PreferIPv4.filter r =
        (true, { r with Answer := r.Answer.filter (fun a => decide (a.Rrtype ≠ TypeAAAA)) })
      ∧ (∀ a ∈ (PreferIPv4.filter r).2.Answer, a.Rrtype ≠ TypeAAAA)
      ∧ (PreferIPv4.filter r).2.Answer.filter (fun a => decide (a.Rrtype = TypeA))
          = r.Answer.filter (fun a => decide (a.Rrtype = TypeA))
      ∧ (PreferIPv4.filter r).2.Rcode = r.Rcode)
    ∧ (PreferIPv6.filter r =
        (true, { r with Answer := r.Answer.filter (fun a => decide (a.Rrtype ≠ TypeA)) })
      ∧ (∀ a ∈ (PreferIPv6.filter r).2.Answer, a.Rrtype ≠ TypeA)
      ∧ (PreferIPv6.filter r).2.Answer.filter (fun a => decide (a.Rrtype = TypeAAAA))
          = r.Answer.filter (fun a => decide (a.Rrtype = TypeAAAA))
      ∧ (PreferIPv6.filter r).2.Rcode = r.Rcode) := by
  have h4 : hasA r.Answer = true := (hasA_iff _).2 hA
  have h6 : hasAAAA r.Answer = true := (hasAAAA_iff _).2 hAAAA
  have e4 := PreferIPv4_filter_eq r
  have e6 := PreferIPv6_filter_eq r
  simp only [h4, h6, Bool.and_self, if_true] at e4 e6
  refine ⟨⟨e4, ?_, ?_, ?_⟩, ⟨e6, ?_, ?_, ?_⟩⟩
  · rw [e4]
    intro a ha
    simpa using (List.mem_filter.1 ha).2
  · rw [e4]
    exact filter_keeps_family TypeA TypeAAAA (by decide) r.Answer
  · rw [e4]
  · rw [e6]
    intro a ha
    simpa using (List.mem_filter.1 ha).2
  · rw [e6]
    exact filter_keeps_family TypeAAAA TypeA (by decide) r.Answer
  · rw [e6]

/-- Witness of C1 on the answers of the repository's `prefer` tests: two `A`
records followed by two `AAAA` records. -/
theorem C1_prefer_removes_other_family_witness :
    (PreferIPv4.filter preferMsg).2.Answer =
        [.A "example.org." (IPv4 127 0 0 1), .A "example.org." (IPv4 172 16 10 1)]
      ∧ (PreferIPv6.filter preferMsg).2.Answer =
        [.AAAA "example.org." ip_fe80_1912, .AAAA "example.org." ip_fe80_3f9b]
      ∧ (PreferIPv4.filter preferMsg).1 = true ∧ (PreferIPv6.filter preferMsg).1 = true := by
  have h := C1_prefer_removes_other_family preferMsg
    ⟨.A "example.org." (IPv4 127 0 0 1), by simp [preferMsg, preferAnswers], rfl⟩
    ⟨.AAAA "example.org." ip_fe80_1912, by simp [preferMsg, preferAnswers], rfl⟩
  refine ⟨?_, ?_, ?_, ?_⟩
  · rw [h.1.1]; rfl
  · rw [h.2.1]; rfl
  · rw [h.1.1]
  · rw [h.2.1]

/-- C4: when the answers do not hold both an `A` and an `AAAA` record, both
preference filters report no change and return the message itself. -/
theorem C4_prefer_single_family_unchanged (r : Msg)
    (h : ¬ ((∃ a ∈ r.Answer, a.Rrtype = TypeA) ∧ (∃ a ∈ r.Answer, a.Rrtype = TypeAAAA))) :
    PreferIPv4.filter r = (false, r) ∧ PreferIPv6.filter r = (false, r) :=
  prefer_unchanged_of_not_both r h

/-- Witness of C4: a message with an `A` record and a `CNAME`-typed record, no
`AAAA` record. -/
theorem C4_prefer_single_family_unchanged_witness :
    PreferIPv4.filter onlyAMsg = (false, onlyAMsg) ∧
      PreferIPv6.filter onlyAMsg = (false, onlyAMsg) :=
  C4_prefer_single_family_unchanged onlyAMsg (by
    rintro ⟨_, ⟨a, ha, h6⟩⟩
    simp only [onlyAMsg, List.mem_cons, List.mem_singleton, List.not_mem_nil, or_false] at ha
    rcases ha with rfl | rfl <;> revert h6 <;> decide)

/-! ## Bogus-address filter: contract -/

/-- C3: the response code after `BogusNxDomain.filter` is name-error when at
least one answer was dropped (the answer list got shorter) and no answer is
left; in every other case it is the input's response code. -/
theorem C3_bogus_rcode (f : BogusNxDomain) (r : Msg) :
    (f.filter r).2.1.Rcode =
      if (f.filter r).2.1.Answer.length < r.Answer.length ∧ (f.filter r).2.1.Answer = []
      then RcodeNameError else r.Rcode := by
  rw [bogus_filter_eq]
  by_cases hd : r.Answer.any f.build.drops = true
  · have hlt := (any_drops_iff_shorter f.build r.Answer).1 hd
    simp only [hd, if_true, hlt, true_and, List.length_eq_zero]
  · have hnl : ¬ (r.Answer.length < r.Answer.length) := lt_irrefl _
    simp only [hd, Bool.false_eq_true, if_false, hnl, false_and]

/-- C10: the flag returned by `BogusNxDomain.filter` is true exactly when at
least one answer was dropped (the returned answer list is shorter than the
input's); when it is false the returned message is the input message; and a
handle whose builders never received an entry returns `(false, r)` and stays
as it is. -/
theorem C10_bogus_changed_flag (f : BogusNxDomain) (r : Msg) :
    ((f.filter r).1 = true ↔ (f.filter r).2.1.Answer.length < r.Answer.length)
      ∧ ((f.filter r).1 = false → (f.filter r).2.1 = r)
      ∧ (BogusNxDomain.mk none none none none).filter r
          = (false, r, BogusNxDomain.mk none none none none) := by
  refine ⟨?_, ?_, rfl⟩
  · rw [bogus_filter_eq]
    by_cases hd : r.Answer.any f.build.drops = true
    · have hlt := (any_drops_iff_shorter f.build r.Answer).1 hd
      simp [hd, hlt]
    · simp [hd]
  · rw [bogus_filter_eq]
    by_cases hd : r.Answer.any f.build.drops = true
    · simp [hd]
    · simp [hd]

/-- C9: each filter is idempotent.  Applying `PreferIPv4.filter` (or
`PreferIPv6.filter`) to the message it returned reports no change and returns
that message; applying the bogus filter, in the state the first call left it,
to the message of the first call reports no change and returns that message
(answers and response code). -/
theorem C9_filters_idempotent (f : BogusNxDomain) (r : Msg) :
    PreferIPv4.filter (PreferIPv4.filter r).2 = (false, (PreferIPv4.filter r).2)
      ∧ PreferIPv6.filter (PreferIPv6.filter r).2 = (false, (PreferIPv6.filter r).2)
      ∧ (f.filter r).2.2.filter (f.filter r).2.1
          = (false, (f.filter r).2.1, (f.filter r).2.2) := by
  refine ⟨?_, ?_, ?_⟩
  · by_cases hb : (hasA r.Answer && hasAAAA r.Answer) = true
    · have e := PreferIPv4_filter_eq r
      simp only [hb, if_true] at e
      rw [e]
      refine (prefer_unchanged_of_not_both _ ?_).1
      rintro ⟨_, ⟨a, ha, h6⟩⟩
      have := (List.mem_filter.1 ha).2
      simp [h6] at this
    · have e := PreferIPv4_filter_eq r
      simp only [hb, if_false] at e
      rw [e]
      exact e
  · by_cases hb : (hasA r.Answer && hasAAAA r.Answer) = true
    · have e := PreferIPv6_filter_eq r
      simp only [hb, if_true] at e
      rw [e]
      refine (prefer_unchanged_of_not_both _ ?_).2
      rintro ⟨⟨a, ha, h4⟩, _⟩
      have := (List.mem_filter.1 ha).2
      simp [h4] at this
    · have e := PreferIPv6_filter_eq r
      simp only [hb, if_false] at e
      rw [e]
      exact e
  · have key : ∀ r2 : Msg, (∀ a ∈ r2.Answer, f.build.drops a = false) →
        f.build.filter r2 = (false, r2, f.build) := by
      intro r2 h2
      rw [bogus_filter_eq, build_build]
      have hd : r2.Answer.any f.build.drops = false := by
        rw [List.any_eq_false]
        intro a ha
        simp [h2 a ha]
      simp [hd]
    have e := bogus_filter_eq f r
    by_cases hd : r.Answer.any f.build.drops = true
    · simp only [hd, if_true] at e
      rw [e]
      apply key
      intro a ha
      have := (List.mem_filter.1 ha).2
      simpa using this
    · have hd2 := hd
      simp only [hd, Bool.false_eq_true, if_false] at e
      rw [e]
      apply key
      intro a ha
      simp only [Bool.not_eq_true] at hd2
      rw [List.any_eq_false] at hd2
      simpa using hd2 a ha

/-! ## `ServeDNS` and `AddCommand` -/

/-- The capturing writer never touches the sink it wraps. -/
theorem nonwriter_run_inner (p : Prog) (nw : NonWriter) :
    (p.run NonWriter.WriteMsg nw).1.inner = nw.inner := by
  induction p generalizing nw with
  | done rcode err => rfl
  | writeMsg m next ih =>
    simp only [Prog.run]
    rw [ih]
    rfl

theorem toLower_bogus (env : Env) : ToLower env "bogus-nxdomain" = "bogus-nxdomain" := by
  rfl

/-- On a plugin returned by `NewFilterHandler`, `bogus-nxdomain` with at least
one token panics in the type assertion, before any token is parsed. -/
theorem fresh_bogus_panics (env : Env) (opt : String) (rest : List String) :
    NewFilterHandler.AddCommand env "bogus-nxdomain" (opt :: rest) =
      .panic "interface conversion: interface is nil, not *coredns_filter.BogusNxDomain" := by
  have h1 : ToLower env "bogus-nxdomain" ≠ "prefer" := by
    rw [toLower_bogus]; decide
  unfold Filter.AddCommand
  rw [if_neg h1, if_pos (toLower_bogus env)]
  rfl

/-- C5 (the code fails the claim): on a freshly created plugin,
`AddCommand("bogus-nxdomain", ["172.16.1.0/24", "fe80::2896:acff:fe37:1912"])`
does not complete: the single-value type assertion on the nil interface
`m.BugosNxDomain` panics, whatever the parsers do, so no bogus filter is
installed and no error value is returned. -/
theorem C5_fresh_bogus_command_panics (env : Env) :
    NewFilterHandler.AddCommand env "bogus-nxdomain"
        ["172.16.1.0/24", "fe80::2896:acff:fe37:1912"] =
      .panic "interface conversion: interface is nil, not *coredns_filter.BogusNxDomain" :=
  fresh_bogus_panics env _ _

/-- C8 (the code fails the claim): on a freshly created plugin, `bogus-nxdomain`
with a non-empty token list never returns a configuration error, not even for
a token that parses neither as an address nor as a prefix: the call panics
before the first token is parsed. -/
theorem C8_fresh_bogus_bad_token_no_error (env : Env) (options : List String)
    (hne : options ≠ []) (m : Filter) (err : Option String) :
    NewFilterHandler.AddCommand env "bogus-nxdomain" options ≠ .ret (m, err) := by
  cases options with
  | nil => exact absurd rfl hne
  | cons opt rest =>
    rw [fresh_bogus_panics]
    intro h
    cases h

/-- Witness of C8 at the token list `["not-an-ip"]`, for a parser that rejects
every token. -/
theorem C8_fresh_bogus_bad_token_no_error_witness :
    NewFilterHandler.AddCommand ⟨id, fun _ => none, fun _ => none⟩ "bogus-nxdomain" ["not-an-ip"]
      ≠ .ret (NewFilterHandler, some (cannotParse "not-an-ip")) :=
  C8_fresh_bogus_bad_token_no_error _ ["not-an-ip"] (by decide) _ _

/-- C6: on the intercepted path (a filter is configured), when the downstream
handler returns no error and the capturing writer holds the message `msg`,
`ServeDNS` returns and has written to the real sink exactly one message: the
result of the preference filter on `msg` (if one is configured) passed through
the bogus filter (if one is configured).  The two handlers are not nil
`*BogusNxDomain` pointers, which `AddCommand` never installs. -/
theorem C6_serve_writes_filtered_message_once (m : Filter) (w : ResponseWriter) (r msg : Msg)
    (h : Handler) (nw : NonWriter) (rcode : Int)
    (hcfg : (m.Prefer.isNil && m.BugosNxDomain.isNil) = false)
    (hP : m.Prefer ≠ .bogus none) (hB : m.BugosNxDomain ≠ .bogus none)
    (hnext : m.Next = some h)
    (hrun : (h r).run NonWriter.WriteMsg (NonWriter.New w) = (nw, rcode, none))
    (hmsg : nw.Msg = some msg) :
    ∃ res, m.ServeDNS w r = .ret res ∧
      res.w.written = w.written ++ [applyFilter m.BugosNxDomain (applyFilter m.Prefer msg)] := by
  have hin : nw.inner = w := by
    have := nonwriter_run_inner (h r) (NonWriter.New w)
    rw [hrun] at this
    exact this
  rcases m with ⟨next, P, B⟩
  simp only at hcfg hP hB hnext
  subst hnext
  unfold Filter.ServeDNS
  simp only [hcfg, Bool.false_eq_true, if_false, NextOrFailure, hrun, Option.isSome_none, hmsg]
  rcases P with _ | _ | _ | (_ | f) <;> rcases B with _ | _ | _ | (_ | g) <;>
    first
    | exact absurd rfl hP
    | exact absurd rfl hB
    | exact absurd hcfg (by decide)
    | (simp only [FilterHandler.isNil, FilterHandler.filter, applyFilter,
        ResponseWriter.WriteMsg, hin, Bool.not_true, Bool.not_false, if_true, if_false,
        Bool.false_eq_true]
       split <;> exact ⟨_, rfl, rfl⟩)

/-- Witness of C6: `prefer ipv4` and the bogus set `172.16.1.1`, `fe80::/8`
on the downstream answers `A 172.16.1.1`, `AAAA fe80::2896:acff:fe37:1912`. -/
theorem C6_serve_writes_filtered_message_once_witness :
    ∃ res, preferThenBogusPlugin.ServeDNS okSink testRequest = .ret res ∧
      res.w.written = okSink.written ++
        [applyFilter preferThenBogusPlugin.BugosNxDomain
          (applyFilter preferThenBogusPlugin.Prefer ⟨RcodeSuccess, bogusAllAnswers, [], []⟩)] :=
  C6_serve_writes_filtered_message_once preferThenBogusPlugin okSink testRequest
    ⟨RcodeSuccess, bogusAllAnswers, [], []⟩ (testHandler RcodeSuccess bogusAllAnswers)
    ⟨okSink, some ⟨RcodeSuccess, bogusAllAnswers, [], []⟩⟩ 0 rfl (by decide) (by decide) rfl rfl rfl

/-- C7 (the code fails the claim): with the bogus set `172.16.1.1`, `fe80::/8`
and the downstream answers `A 172.16.1.1`, `AAAA fe80::2896:acff:fe37:1912`
(downstream code success, the write succeeds), `ServeDNS` returns no error and
writes a message with no answer and response code name-error, yet the code it
returns is `0`, not name-error. -/
theorem C7_serve_returns_zero_after_nxdomain_rewrite :
    ∃ res, bogusAllPlugin.ServeDNS okSink testRequest = .ret res ∧
      res.err = none ∧
      res.w.written = [⟨RcodeNameError, [], [], []⟩] ∧
      res.rcode = 0 ∧ res.rcode ≠ RcodeNameError :=
  ⟨_, rfl, rfl, rfl, rfl, by decide⟩

/-- C2 (the code fails the claim): after `bogus-nxdomain ::ffff:1.2.3.4` has
been accepted (the token is parsed as an IPv6 address and added to the IPv6
builder), the filter does not drop the record `AAAA ::ffff:1.2.3.4`:
`FromStdIP` turns the record's address into the IPv4 address `1.2.3.4`, which
the IPv6 set does not contain. -/
theorem C2_mapped_aaaa_record_not_dropped (env : Env)
    (hparse : env.ParseAddr "::ffff:1.2.3.4" = some addr_mapped_1234) :
    ∃ f : BogusNxDomain,
      emptyBogusFilter.AddCommand env "bogus-nxdomain" ["::ffff:1.2.3.4"]
          = .ret ({ emptyBogusFilter with BugosNxDomain := .bogus (some f) }, none)
        ∧ f.ipv6Builder = some ⟨[⟨addr_mapped_1234, addr_mapped_1234⟩]⟩
        ∧ FromStdIP ip_mapped_1234 = (.v4 0x01020304, true)
        ∧ (f.filter mappedMsg).1 = false
        ∧ (f.filter mappedMsg).2.1 = mappedMsg := by
  have h1 : ToLower env "bogus-nxdomain" ≠ "prefer" := by
    rw [toLower_bogus]; decide
  refine ⟨⟨none, some ⟨[⟨addr_mapped_1234, addr_mapped_1234⟩]⟩, none, none⟩, ?_, rfl, rfl,
    rfl, rfl⟩
  unfold Filter.AddCommand
  rw [if_neg h1, if_pos (toLower_bogus env)]
  simp only [Filter.AddBogusNxDomainHandler, emptyBogusFilter, addOptions, addOption, hparse]
  rfl

/-- Witness of C2 with a parser that knows the token `::ffff:1.2.3.4`. -/
theorem C2_mapped_aaaa_record_not_dropped_witness :
    ∃ f : BogusNxDomain,
      emptyBogusFilter.AddCommand mappedEnv "bogus-nxdomain" ["::ffff:1.2.3.4"]
          = .ret ({ emptyBogusFilter with BugosNxDomain := .bogus (some f) }, none)
        ∧ f.ipv6Builder = some ⟨[⟨addr_mapped_1234, addr_mapped_1234⟩]⟩
        ∧ FromStdIP ip_mapped_1234 = (.v4 0x01020304, true)
        ∧ (f.filter mappedMsg).1 = false
        ∧ (f.filter mappedMsg).2.1 = mappedMsg :=
  C2_mapped_aaaa_record_not_dropped mappedEnv rfl

/-! ## `ServeDNS`: error paths and fast path -/

/-- Whatever the next handler does, the sink wrapped by the capturing writer
is the one that was wrapped. -/
theorem nextOrFailure_inner (name : String) (next : Option Handler) (nw : NonWriter) (r : Msg) :
    (NextOrFailure name next NonWriter.WriteMsg nw r).1.inner = nw.inner := by
  cases next with
  | none => rfl
  | some h => exact nonwriter_run_inner (h r) nw

/-- C11: on the intercepted path, when the downstream call returns an error,
`ServeDNS` returns the downstream's code and error; the plugin is as before (no
filter ran, no set was built) and the real sink is as before (nothing was
written). -/
theorem C11_serve_propagates_downstream_error (m : Filter) (w : ResponseWriter) (r : Msg)
    (nw : NonWriter) (rcode : Int) (e : String)
    (hcfg : (m.Prefer.isNil && m.BugosNxDomain.isNil) = false)
    (hrun : NextOrFailure m.Name m.Next NonWriter.WriteMsg (NonWriter.New w) r
      = (nw, rcode, some e)) :
    m.ServeDNS w r = .ret ⟨m, w, rcode, some e⟩ := by
  have hin : nw.inner = w := by
    have := nextOrFailure_inner m.Name m.Next (NonWriter.New w) r
    rw [hrun] at this
    exact this
  unfold Filter.ServeDNS
  simp only [hcfg, Bool.false_eq_true, if_false, hrun, Option.isSome_some, if_true, hin]

/-- Witness of C11: `prefer ipv4` configured, the next handler fails with
`RcodeServerFailure`. -/
theorem C11_serve_propagates_downstream_error_witness :
    Filter.ServeDNS ⟨some failingHandler, .preferIPv4, .nil⟩ okSink testRequest
      = .ret ⟨⟨some failingHandler, .preferIPv4, .nil⟩, okSink, RcodeServerFailure,
          some "upstream failed"⟩ :=
  C11_serve_propagates_downstream_error ⟨some failingHandler, .preferIPv4, .nil⟩ okSink
    testRequest ⟨okSink, none⟩ RcodeServerFailure "upstream failed" rfl rfl

/-- C12: on the intercepted path, when the downstream call returns no error
and the capturing writer holds no message, `ServeDNS` returns the non-zero
status `1` with the error `no answer received`; the plugin and the real sink
are as before (nothing was written). -/
theorem C12_serve_fails_without_answer (m : Filter) (w : ResponseWriter) (r : Msg)
    (nw : NonWriter) (rcode : Int)
    (hcfg : (m.Prefer.isNil && m.BugosNxDomain.isNil) = false)
    (hrun : NextOrFailure m.Name m.Next NonWriter.WriteMsg (NonWriter.New w) r
      = (nw, rcode, none))
    (hmsg : nw.Msg = none) :
    m.ServeDNS w r = .ret ⟨m, w, 1, some "no answer received"⟩ := by
  have hin : nw.inner = w := by
    have := nextOrFailure_inner m.Name m.Next (NonWriter.New w) r
    rw [hrun] at this
    exact this
  unfold Filter.ServeDNS
  simp only [hcfg, Bool.false_eq_true, if_false, hrun, Option.isSome_none, hmsg, hin]

/-- Witness of C12: the bogus set of the tests configured, the next handler
returns success without writing. -/
theorem C12_serve_fails_without_answer_witness :
    Filter.ServeDNS ⟨some silentHandler, .nil, .bogus (some bogusAllFilter)⟩ okSink testRequest
      = .ret ⟨⟨some silentHandler, .nil, .bogus (some bogusAllFilter)⟩, okSink, 1,
          some "no answer received"⟩ :=
  C12_serve_fails_without_answer ⟨some silentHandler, .nil, .bogus (some bogusAllFilter)⟩ okSink
    testRequest ⟨okSink, none⟩ RcodeSuccess rfl rfl rfl

theorem toLower_prefer (env : Env) : ToLower env "prefer" = "prefer" := by
  rfl

theorem toLower_none (env : Env) : ToLower env "none" = "none" := by
  rfl

/-- The command `prefer none` returns no error and leaves the plugin as it is. -/
theorem prefer_none_noop (env : Env) (m : Filter) :
    m.AddCommand env "prefer" ["none"] = .ret (m, none) := by
  unfold Filter.AddCommand
  rw [if_pos (toLower_prefer env)]
  unfold Filter.AddPreferHandler
  simp only [toLower_none, if_true]

/-- The command `bogus-nxdomain` without tokens returns no error and leaves the
plugin as it is, before the type assertion is reached. -/
theorem bogus_empty_noop (env : Env) (m : Filter) :
    m.AddCommand env "bogus-nxdomain" [] = .ret (m, none) := by
  have h1 : ToLower env "bogus-nxdomain" ≠ "prefer" := by
    rw [toLower_bogus]; decide
  unfold Filter.AddCommand
  rw [if_neg h1, if_pos (toLower_bogus env)]
  rfl

/-- C13: with neither a preference filter nor a bogus filter configured,
`ServeDNS` is the call of the next handler on the real sink and the request:
the returned code and error are the downstream's, every message the downstream
writes goes to the real sink as it is, and the plugin is unchanged.  The
commands `prefer none` and `bogus-nxdomain` without tokens leave such a plugin
in that state. -/
theorem C13_serve_fast_path (env : Env) (m : Filter) (w : ResponseWriter) (r : Msg)
    (hP : m.Prefer = .nil) (hB : m.BugosNxDomain = .nil) :
    m.ServeDNS w r =
        .ret ⟨m, (NextOrFailure m.Name m.Next ResponseWriter.WriteMsg w r).1,
          (NextOrFailure m.Name m.Next ResponseWriter.WriteMsg w r).2.1,
          (NextOrFailure m.Name m.Next ResponseWriter.WriteMsg w r).2.2⟩
      ∧ (∀ h : Handler, m.Next = some h →
          m.ServeDNS w r =
            .ret ⟨m, ((h r).run ResponseWriter.WriteMsg w).1,
              ((h r).run ResponseWriter.WriteMsg w).2.1,
              ((h r).run ResponseWriter.WriteMsg w).2.2⟩)
      ∧ m.AddCommand env "prefer" ["none"] = .ret (m, none)
      ∧ m.AddCommand env "bogus-nxdomain" [] = .ret (m, none) := by
  have hfast : m.ServeDNS w r =
      .ret ⟨m, (NextOrFailure m.Name m.Next ResponseWriter.WriteMsg w r).1,
        (NextOrFailure m.Name m.Next ResponseWriter.WriteMsg w r).2.1,
        (NextOrFailure m.Name m.Next ResponseWriter.WriteMsg w r).2.2⟩ := by
    unfold Filter.ServeDNS
    simp only [hP, hB, FilterHandler.isNil, Bool.and_self, if_true]
  refine ⟨hfast, ?_, prefer_none_noop env m, bogus_empty_noop env m⟩
  intro h hnext
  rw [hfast]
  simp only [NextOrFailure, hnext]

/-- Witness of C13: a fresh plugin with `testHandler` as next handler writes
the downstream message of the `prefer` tests to the sink unmodified and returns
the downstream's `0, nil`. -/
theorem C13_serve_fast_path_witness :
    Filter.ServeDNS { NewFilterHandler with Next := some (testHandler RcodeSuccess preferAnswers) }
        okSink testRequest
      = .ret ⟨{ NewFilterHandler with Next := some (testHandler RcodeSuccess preferAnswers) },
          ⟨[preferMsg], okSink.result⟩, 0, none⟩ :=
  (C13_serve_fast_path plainEnv
    { NewFilterHandler with Next := some (testHandler RcodeSuccess preferAnswers) }
    okSink testRequest rfl rfl).1

/-! ## `prefer` -/

/-- A character whose lower-case form is ASCII is ASCII. -/
theorem ascii_of_toLower_ascii (c : Char) (h : (Char.toLower c).toNat < 128) :
    c.toNat < 128 := by
  unfold Char.toLower at h
  by_cases hr : c.toNat ≥ 65 ∧ c.toNat ≤ 90
  · omega
  · simpa [hr] using h

/-- On a string equal to the ASCII lower-case string `s` up to case,
`strings.ToLower` returns `s`. -/
theorem toLower_of_fold (env : Env) (v s : String)
    (hs : s.data.all (fun c => decide (c.toNat < 128)) = true)
    (h : v.data.map Char.toLower = s.data) :
    ToLower env v = s := by
  have hv : v.data.all (fun c => decide (c.toNat < 128)) = true := by
    rw [List.all_eq_true] at hs ⊢
    intro c hc
    have hm : Char.toLower c ∈ s.data := by
      rw [← h]
      exact List.mem_map_of_mem _ hc
    have := hs _ hm
    simp only [decide_eq_true_eq] at this ⊢
    exact ascii_of_toLower_ascii c this
  unfold ToLower
  rw [if_pos hv, h]

theorem toLower_of_eqFold_ipv4 (env : Env) (v : String) (h : eqFold v "ipv4" = true) :
    ToLower env v = "ipv4" := by
  apply toLower_of_fold env v "ipv4" (by decide)
  unfold eqFold at h
  simpa using h

theorem toLower_of_eqFold_ipv6 (env : Env) (v : String) (h : eqFold v "ipv6" = true) :
    ToLower env v = "ipv6" := by
  apply toLower_of_fold env v "ipv6" (by decide)
  unfold eqFold at h
  simpa using h

/-- C14: for every plugin state and every option `v` equal to `ipv4` or to
`ipv6` up to case, `AddCommand("prefer", [v])` returns no error and leaves the
plugin with the IPv4-preference (resp. IPv6-preference) filter in the
preference slot, whatever was there before, and with the bogus filter and the
next handler unchanged. -/
theorem C14_prefer_installs_filter (env : Env) (m : Filter) (v : String)
    (hv : eqFold v "ipv4" = true ∨ eqFold v "ipv6" = true) :
    m.AddCommand env "prefer" [v] =
      .ret ({ Next := m.Next,
              Prefer := if eqFold v "ipv4" then .preferIPv4 else .preferIPv6,
              BugosNxDomain := m.BugosNxDomain }, none) := by
  unfold Filter.AddCommand
  rw [if_pos (toLower_prefer env)]
  unfold Filter.AddPreferHandler
  rcases hv with h4 | h6
  · have e := toLower_of_eqFold_ipv4 env v h4
    have hn : ¬ (("ipv4" : String) = "none") := by decide
    simp only [e, h4, hn, if_false, if_true]
  · have e := toLower_of_eqFold_ipv6 env v h6
    have hn : ¬ (("ipv6" : String) = "none") := by decide
    have hn4 : ¬ (("ipv6" : String) = "ipv4") := by decide
    have h4 : eqFold v "ipv4" = false := by
      unfold eqFold at h6 ⊢
      simp only [decide_eq_true_eq] at h6
      rw [h6]
      decide
    simp only [e, h4, hn, hn4, if_false, if_true, Bool.false_eq_true]

/-- Witness of C14: `prefer IPv6` on a plugin that has `prefer ipv4` and a
bogus filter configured replaces the preference filter and nothing else. -/
theorem C14_prefer_installs_filter_witness :
    (eqFold "IPv6" "ipv4" = true ∨ eqFold "IPv6" "ipv6" = true) ∧
      preferThenBogusPlugin.AddCommand plainEnv "prefer" ["IPv6"] =
        .ret ({ Next := preferThenBogusPlugin.Next, Prefer := .preferIPv6,
                BugosNxDomain := preferThenBogusPlugin.BugosNxDomain }, none) :=
  ⟨Or.inr (by decide),
    C14_prefer_installs_filter plainEnv preferThenBogusPlugin "IPv6" (Or.inr (by decide))⟩

/-- C15, as stated, fails: after `prefer ipv4` on a fresh plugin, the command
`prefer none` returns no error and the IPv4-preference filter is still
installed. -/
theorem C15_prefer_none_keeps_filter_counterexample :
    ∃ m1 m2 : Filter,
      NewFilterHandler.AddCommand plainEnv "prefer" ["ipv4"] = .ret (m1, none) ∧
      m1.AddCommand plainEnv "prefer" ["none"] = .ret (m2, none) ∧
      m2.Prefer = .preferIPv4 ∧ m2.Prefer ≠ .nil :=
  ⟨{ NewFilterHandler with Prefer := .preferIPv4 }, { NewFilterHandler with Prefer := .preferIPv4 },
    rfl, rfl, rfl, by decide⟩

/-- C15, amended: for every plugin state, `AddCommand("prefer", ["none"])`
returns no error and leaves the plugin as it was: the preference slot holds
after the call what it held before, so no preference filter is installed
afterwards exactly when none was installed before. -/
theorem C15_prefer_none_is_noop (env : Env) (m : Filter) :
    m.AddCommand env "prefer" ["none"] = .ret (m, none)
      ∧ ∀ m2 : Filter, m.AddCommand env "prefer" ["none"] = .ret (m2, none) →
          (m2.Prefer = .nil ↔ m.Prefer = .nil) := by
  refine ⟨prefer_none_noop env m, ?_⟩
  intro m2 h
  rw [prefer_none_noop] at h
  cases h
  exact Iff.rfl

/-! ## `bogus-nxdomain`: what the token loop does to a handle -/

/-- The token loop reads and writes the two builders only: on a handle with
other cached sets it does the same to the builders, returns the same error,
and leaves those sets in place. -/
theorem addOption_sets (env : Env) (b4 b6 : Option IPSetBuilder) (s4 s6 : Option IPSet)
    (opt : String) :
    addOption env ⟨b4, b6, s4, s6⟩ opt =
      (⟨(addOption env ⟨b4, b6, none, none⟩ opt).1.ipv4Builder,
        (addOption env ⟨b4, b6, none, none⟩ opt).1.ipv6Builder, s4, s6⟩,
       (addOption env ⟨b4, b6, none, none⟩ opt).2) := by
  unfold addOption
  cases env.ParseAddr opt with
  | some ip =>
    by_cases h4 : ip.Is4 = true
    · cases b4 <;> simp [h4, addIPv4, mutableIPv4Builder]
    · by_cases h6 : ip.Is6 = true
      · cases b6 <;> simp [h4, h6, addIPv6, mutableIPv6Builder]
      · simp [h4, h6]
  | none =>
    cases env.ParsePrefix opt with
    | some p =>
      by_cases h4 : p.Addr.Is4 = true
      · cases b4 <;> simp [h4, addPrefixIPv4, mutableIPv4Builder]
      · by_cases h6 : p.Addr.Is6 = true
        · cases b6 <;> simp [h4, h6, addPrefixIPv6, mutableIPv6Builder]
        · simp [h4, h6]
    | none => simp

theorem addOptions_sets (env : Env) (options : List String) (b4 b6 : Option IPSetBuilder)
    (s4 s6 : Option IPSet) :
    addOptions env ⟨b4, b6, s4, s6⟩ options =
      (⟨(addOptions env ⟨b4, b6, none, none⟩ options).1.ipv4Builder,
        (addOptions env ⟨b4, b6, none, none⟩ options).1.ipv6Builder, s4, s6⟩,
       (addOptions env ⟨b4, b6, none, none⟩ options).2) := by
  induction options generalizing b4 b6 with
  | nil => rfl
  | cons opt rest ih =>
    have e := addOption_sets env b4 b6 s4 s6 opt
    simp only [addOptions]
    rw [e]
    rcases hres : addOption env ⟨b4, b6, none, none⟩ opt with ⟨⟨c4, c6, t4, t6⟩, _ | err⟩
    · have e0 := addOption_sets env b4 b6 none none opt
      rw [hres] at e0
      simp only [Prod.mk.injEq, BogusNxDomain.mk.injEq, true_and, and_true] at e0
      obtain ⟨rfl, rfl⟩ := e0
      simp only []
      rw [ih c4 c6]
    · simp only []

/-- The token loop on a handle, in terms of the loop on the handle with its
sets cleared. -/
theorem addOptions_clear (env : Env) (h : BogusNxDomain) (options : List String) :
    addOptions env h options =
      (⟨(addOptions env (clearSets h) options).1.ipv4Builder,
        (addOptions env (clearSets h) options).1.ipv6Builder, h.ipv4Set, h.ipv6Set⟩,
       (addOptions env (clearSets h) options).2) := by
  rcases h with ⟨b4, b6, s4, s6⟩
  exact addOptions_sets env options b4 b6 s4 s6

/-- An accepted token yields no error. -/
theorem addOption_valid (env : Env) (h : BogusNxDomain) (opt : String)
    (hv : validToken env opt = true) : (addOption env h opt).2 = none := by
  unfold validToken at hv
  unfold addOption
  cases hp : env.ParseAddr opt with
  | some ip =>
    rw [hp] at hv
    simp only [Bool.or_eq_true] at hv
    by_cases h4 : ip.Is4 = true
    · simp [h4]
    · rcases hv with h | h
      · exact absurd h h4
      · simp [h4, h]
  | none =>
    rw [hp] at hv
    cases hq : env.ParsePrefix opt with
    | some p =>
      rw [hq] at hv
      simp only [Bool.or_eq_true] at hv
      by_cases h4 : p.Addr.Is4 = true
      · simp [h4]
      · rcases hv with h | h
        · exact absurd h h4
        · simp [h4, h]
    | none =>
      rw [hq] at hv
      simp at hv

/-- A token that parses as nothing stops the loop with its error and leaves
the handle as it is. -/
theorem addOption_unparsable (env : Env) (h : BogusNxDomain) (opt : String)
    (hu : unparsable env opt = true) : addOption env h opt = (h, some (cannotParse opt)) := by
  unfold unparsable at hu
  simp only [Bool.and_eq_true, Option.isNone_iff_eq_none] at hu
  unfold addOption
  simp [hu.1, hu.2]

theorem addOptions_valid (env : Env) (options : List String) (h : BogusNxDomain)
    (hv : ∀ x ∈ options, validToken env x = true) : (addOptions env h options).2 = none := by
  induction options generalizing h with
  | nil => rfl
  | cons opt rest ih =>
    have h1 := addOption_valid env h opt (hv opt (List.mem_cons_self _ _))
    simp only [addOptions]
    rcases hres : addOption env h opt with ⟨h', _ | err⟩
    · simp only []
      exact ih h' (fun x hx => hv x (List.mem_cons_of_mem _ hx))
    · rw [hres] at h1
      cases h1

/-- The loop over `xs ++ ys` is the loop over `xs` followed, if it returned no
error, by the loop over `ys`. -/
theorem addOptions_append (env : Env) (xs ys : List String) (h : BogusNxDomain) :
    addOptions env h (xs ++ ys) =
      match addOptions env h xs with
      | (h', some err) => (h', some err)
      | (h', none) => addOptions env h' ys := by
  induction xs generalizing h with
  | nil => rfl
  | cons x rest ih =>
    simp only [List.cons_append, addOptions]
    rcases addOption env h x with ⟨h', _ | err⟩
    · simp only []
      exact ih h'
    · simp only []

theorem addOptions_append_valid (env : Env) (xs ys : List String) (h : BogusNxDomain)
    (hv : ∀ x ∈ xs, validToken env x = true) :
    addOptions env h (xs ++ ys) = addOptions env (addOptions env h xs).1 ys := by
  rw [addOptions_append]
  have h2 := addOptions_valid env xs h hv
  rcases hres : addOptions env h xs with ⟨h', _ | err⟩
  · rfl
  · rw [hres] at h2
    cases h2

/-! ## The lazy build and runs of `filter` calls -/

theorem build_builders (f : BogusNxDomain) :
    f.build.ipv4Builder = f.ipv4Builder ∧ f.build.ipv6Builder = f.ipv6Builder := by
  rcases f with ⟨_ | b4, _ | b6, _ | s4, _ | s6⟩ <;> exact ⟨rfl, rfl⟩

/-- The handle a `filter` call leaves is the handle after the lazy build. -/
theorem filter_state (f : BogusNxDomain) (r : Msg) : (f.filter r).2.2 = f.build := by
  rw [bogus_filter_eq]
  split <;> rfl

/-- A `filter` call depends on the handle only through the lazy build. -/
theorem filter_congr (f g : BogusNxDomain) (h : f.build = g.build) (r : Msg) :
    f.filter r = g.filter r := by
  rw [bogus_filter_eq f r, bogus_filter_eq g r, h]

/-- A run of `filter` calls leaves the handle as it is (no call) or as the lazy
build leaves it. -/
theorem filterCalls_eq (f : BogusNxDomain) (rs : List Msg) :
    filterCalls f rs = f ∨ filterCalls f rs = f.build := by
  unfold filterCalls
  cases rs with
  | nil => left; rfl
  | cons r rest =>
    right
    simp only [List.foldl_cons, filter_state]
    generalize hg : f.build = g
    have hb : g.build = g := by rw [← hg, build_build]
    clear hg
    induction rest with
    | nil => rfl
    | cons r2 rest2 ih =>
      simp only [List.foldl_cons, filter_state, hb]
      exact ih

theorem filterCalls_build (f : BogusNxDomain) (rs : List Msg) :
    (filterCalls f rs).build = f.build := by
  rcases filterCalls_eq f rs with h | h
  · rw [h]
  · rw [h, build_build]

theorem filterCalls_clear (f : BogusNxDomain) (rs : List Msg) :
    clearSets (filterCalls f rs) = clearSets f := by
  rcases filterCalls_eq f rs with h | h
  · rw [h]
  · rw [h]
    have hb := build_builders f
    unfold clearSets
    rw [hb.1, hb.2]

/-- Clearing the sets after the token loop gives a handle that depends on the
builders of the handle the loop started from only. -/
theorem clear_addOptions (env : Env) (h : BogusNxDomain) (options : List String) :
    clearSets (addOptions env h options).1 = clearSets (addOptions env (clearSets h) options).1 := by
  rw [addOptions_clear env h options]
  rfl

/-! ## `bogus-nxdomain` on an installed handle -/

theorem bogus_dispatch (env : Env) (m : Filter) (options : List String) :
    m.AddCommand env "bogus-nxdomain" options = m.AddBogusNxDomainHandler env options := by
  have h1 : ToLower env "bogus-nxdomain" ≠ "prefer" := by
    rw [toLower_bogus]; decide
  unfold Filter.AddCommand
  rw [if_neg h1, if_pos (toLower_bogus env)]

/-- On a plugin whose bogus handle `f0` is installed, a `bogus-nxdomain` call
whose tokens are all accepted returns no error and leaves the handle
`afterValid env f0 options`. -/
theorem bogus_command_valid (env : Env) (m : Filter) (f0 : BogusNxDomain)
    (options : List String) (hm : m.BugosNxDomain = .bogus (some f0))
    (hv : ∀ x ∈ options, validToken env x = true) :
    m.AddCommand env "bogus-nxdomain" options =
      .ret ({ m with BugosNxDomain := .bogus (some (afterValid env f0 options)) }, none) := by
  rw [bogus_dispatch]
  rcases m with ⟨next, P, B⟩
  simp only at hm
  subst hm
  cases options with
  | nil => rfl
  | cons opt rest =>
    have he := addOptions_valid env (opt :: rest) f0 hv
    unfold Filter.AddBogusNxDomainHandler
    simp only [List.length_cons, Nat.succ_ne_zero, if_false]
    rcases hres : addOptions env f0 (opt :: rest) with ⟨h', _ | err⟩
    · simp only [afterValid, hres, clearSets]
      rfl
    · rw [hres] at he
      cases he

/-- Two calls with accepted tokens, with any run of `filter` calls in between,
leave a handle with the same lazy build as the single call with all the
tokens. -/
theorem accumulate_build (env : Env) (f0 : BogusNxDomain) (xs ys : List String)
    (rs : List Msg) (hxs : ∀ x ∈ xs, validToken env x = true) :
    (afterValid env (filterCalls (afterValid env f0 xs) rs) ys).build
      = (afterValid env f0 (xs ++ ys)).build := by
  cases ys with
  | nil =>
    simp only [afterValid, if_true, List.append_nil]
    exact filterCalls_build _ rs
  | cons y rest =>
    have hne : (y :: rest) ≠ [] := List.cons_ne_nil _ _
    have hne2 : xs ++ y :: rest ≠ [] := by simp
    congr 1
    rw [afterValid, if_neg hne, clear_addOptions, filterCalls_clear]
    rw [afterValid.eq_1 env f0 (xs ++ y :: rest), if_neg hne2]
    by_cases hx : xs = []
    · subst hx
      simp only [afterValid, if_true, List.nil_append]
      exact (clear_addOptions env f0 (y :: rest)).symm
    · rw [afterValid, if_neg hx]
      have hcc : clearSets (clearSets (addOptions env f0 xs).1) = clearSets (addOptions env f0 xs).1 :=
        rfl
      rw [hcc, ← clear_addOptions, addOptions_append_valid env xs (y :: rest) f0 hxs]

/-- On a plugin whose bogus handle is already in place, let `xs` and `ys` be
token lists that are all accepted.  The call with `xs`, any run of `filter`
calls, and then the call with `ys` all return no error, and so does the single
call with `xs ++ ys`; the two handles they leave give the same result on every
later `filter` call.  A call with at least one token leaves both cached sets
nil. -/
theorem installed_entries_accumulate (env : Env) (m : Filter) (f0 : BogusNxDomain)
    (xs ys : List String) (rs : List Msg)
    (hm : m.BugosNxDomain = .bogus (some f0))
    (hxs : ∀ x ∈ xs, validToken env x = true)
    (hys : ∀ y ∈ ys, validToken env y = true) :
    ∃ f1 f2 g : BogusNxDomain,
      m.AddCommand env "bogus-nxdomain" xs
          = .ret ({ m with BugosNxDomain := .bogus (some f1) }, none)
      ∧ Filter.AddCommand env { m with BugosNxDomain := .bogus (some (filterCalls f1 rs)) }
            "bogus-nxdomain" ys
          = .ret ({ m with BugosNxDomain := .bogus (some f2) }, none)
      ∧ m.AddCommand env "bogus-nxdomain" (xs ++ ys)
          = .ret ({ m with BugosNxDomain := .bogus (some g) }, none)
      ∧ (∀ r : Msg, f2.filter r = g.filter r)
      ∧ (xs ≠ [] → f1.ipv4Set = none ∧ f1.ipv6Set = none)
      ∧ (ys ≠ [] → f2.ipv4Set = none ∧ f2.ipv6Set = none) := by
  have hall : ∀ x ∈ xs ++ ys, validToken env x = true := by
    intro x hx
    rcases List.mem_append.1 hx with h | h
    · exact hxs x h
    · exact hys x h
  have hb := accumulate_build env f0 xs ys rs hxs
  refine ⟨afterValid env f0 xs, afterValid env (filterCalls (afterValid env f0 xs) rs) ys,
    afterValid env f0 (xs ++ ys), bogus_command_valid env m f0 xs hm hxs, ?_,
    bogus_command_valid env m f0 (xs ++ ys) hm hall, ?_, ?_, ?_⟩
  · exact bogus_command_valid env _ (filterCalls (afterValid env f0 xs) rs) ys rfl hys
  · intro r
    exact filter_congr _ _ hb r
  · intro hx
    rw [afterValid, if_neg hx]
    exact ⟨rfl, rfl⟩
  · intro hy
    rw [afterValid, if_neg hy]
    exact ⟨rfl, rfl⟩

/-- C16 (the code fails the claim): on a freshly created plugin no sequence of
`bogus-nxdomain` calls yields a bogus filter.  With a first token list
`x :: xs` the first call panics in the type assertion, whatever the tokens are,
and so does the single call with all the tokens; with an empty first list the
first call returns leaving the plugin fresh and the second call, with
`x :: xs`, panics. -/
theorem C16_fresh_accumulation_panics (env : Env) (x : String) (xs ys : List String) :
    NewFilterHandler.AddCommand env "bogus-nxdomain" (x :: xs) =
        .panic "interface conversion: interface is nil, not *coredns_filter.BogusNxDomain"
      ∧ NewFilterHandler.AddCommand env "bogus-nxdomain" ((x :: xs) ++ ys) =
        .panic "interface conversion: interface is nil, not *coredns_filter.BogusNxDomain"
      ∧ NewFilterHandler.AddCommand env "bogus-nxdomain" [] = .ret (NewFilterHandler, none)
      ∧ NewFilterHandler.AddCommand env "bogus-nxdomain" ([] ++ x :: xs) =
        .panic "interface conversion: interface is nil, not *coredns_filter.BogusNxDomain" :=
  ⟨fresh_bogus_panics env x xs, fresh_bogus_panics env x (xs ++ ys),
    bogus_empty_noop env NewFilterHandler, fresh_bogus_panics env x xs⟩

/-! ## `bogus-nxdomain`: the ranges a call adds -/

/-- The range of a single valid address is a valid range. -/
theorem IPRangeFrom_self_valid (ip : Addr) (h : ip.IsValid = true) :
    (IPRangeFrom ip ip).IsValid = true := by
  cases ip with
  | zero => simp [Addr.IsValid] at h
  | v4 a =>
    simp [IPRangeFrom, Addr.WithZone, IPRange.IsValid, Addr.IsValid, Addr.Less, Addr.Compare,
      Addr.BitLen, Addr.bits, Addr.Is6]
  | v6 a z =>
    simp [IPRangeFrom, Addr.WithZone, IPRange.IsValid, Addr.IsValid, Addr.Less, Addr.Compare,
      Addr.BitLen, Addr.bits, Addr.Is6, Addr.Zone, zoneLess]

theorem add_valid (b : IPSetBuilder) (ip : Addr) (h : ip.IsValid = true) :
    (b.Add ip).in_ = b.in_ ++ [IPRangeFrom ip ip] := by
  simp [IPSetBuilder.Add, IPSetBuilder.AddRange, h, IPRangeFrom_self_valid ip h]

theorem addPrefix_ranges (b : IPSetBuilder) (p : Prefix) :
    (b.AddPrefix p).in_ =
      b.in_ ++ (if (RangeOfPrefix p).IsValid then [RangeOfPrefix p] else []) := by
  by_cases h : (RangeOfPrefix p).IsValid = true
  · simp [IPSetBuilder.AddPrefix, IPSetBuilder.AddRange, h]
  · simp [IPSetBuilder.AddPrefix, h]

theorem isValid_of_is4 (ip : Addr) (h : ip.Is4 = true) : ip.IsValid = true := by
  cases ip <;> simp_all [Addr.Is4, Addr.IsValid]

theorem isValid_of_is6 (ip : Addr) (h : ip.Is6 = true) : ip.IsValid = true := by
  cases ip <;> simp_all [Addr.Is6, Addr.IsValid]

/-- One loop iteration appends to each builder the ranges the token stands for
in that family, and leaves the cached sets alone. -/
theorem addOption_ranges (env : Env) (h : BogusNxDomain) (opt : String) :
    (addOption env h opt).2 = none →
      builderRanges (addOption env h opt).1.ipv4Builder
          = builderRanges h.ipv4Builder ++ tokenRangesV4 env opt
        ∧ builderRanges (addOption env h opt).1.ipv6Builder
          = builderRanges h.ipv6Builder ++ tokenRangesV6 env opt
        ∧ (addOption env h opt).1.ipv4Set = h.ipv4Set
        ∧ (addOption env h opt).1.ipv6Set = h.ipv6Set := by
  rcases h with ⟨b4, b6, s4, s6⟩
  unfold addOption tokenRangesV4 tokenRangesV6
  cases env.ParseAddr opt with
  | some ip =>
    by_cases h4 : ip.Is4 = true
    · intro _
      cases b4 <;>
        simp [h4, addIPv4, mutableIPv4Builder, builderRanges, add_valid _ ip (isValid_of_is4 ip h4)]
    · by_cases h6 : ip.Is6 = true
      · intro _
        cases b6 <;>
          simp [h4, h6, addIPv6, mutableIPv6Builder, builderRanges,
            add_valid _ ip (isValid_of_is6 ip h6)]
      · simp [h4, h6]
  | none =>
    cases env.ParsePrefix opt with
    | some p =>
      by_cases h4 : p.Addr.Is4 = true
      · intro _
        cases b4 <;>
          simp [h4, addPrefixIPv4, mutableIPv4Builder, builderRanges, addPrefix_ranges]
      · by_cases h6 : p.Addr.Is6 = true
        · intro _
          cases b6 <;>
            simp [h4, h6, addPrefixIPv6, mutableIPv6Builder, builderRanges, addPrefix_ranges]
        · simp [h4, h6]
    | none => simp

/-- The loop over accepted tokens appends to each builder the ranges of the
tokens of its family, in order, and leaves the cached sets alone. -/
theorem addOptions_ranges (env : Env) (options : List String) (h : BogusNxDomain)
    (hv : ∀ x ∈ options, validToken env x = true) :
    builderRanges (addOptions env h options).1.ipv4Builder
        = builderRanges h.ipv4Builder ++ options.flatMap (tokenRangesV4 env)
      ∧ builderRanges (addOptions env h options).1.ipv6Builder
        = builderRanges h.ipv6Builder ++ options.flatMap (tokenRangesV6 env)
      ∧ (addOptions env h options).1.ipv4Set = h.ipv4Set
      ∧ (addOptions env h options).1.ipv6Set = h.ipv6Set := by
  induction options generalizing h with
  | nil => simp [addOptions]
  | cons opt rest ih =>
    have h1 := addOption_valid env h opt (hv opt (List.mem_cons_self _ _))
    have h2 := addOption_ranges env h opt h1
    simp only [addOptions]
    rcases hres : addOption env h opt with ⟨h', _ | err⟩
    · rw [hres] at h2
      simp only [] at h2 ⊢
      have h3 := ih h' (fun x hx => hv x (List.mem_cons_of_mem _ hx))
      obtain ⟨a1, a2, a3, a4⟩ := h2
      obtain ⟨c1, c2, c3, c4⟩ := h3
      refine ⟨?_, ?_, ?_, ?_⟩
      · rw [c1, a1, List.flatMap_cons, List.append_assoc]
      · rw [c2, a2, List.flatMap_cons, List.append_assoc]
      · rw [c3, a3]
      · rw [c4, a4]
    · rw [hres] at h1
      cases h1

/-- C19: on a plugin whose bogus handle `f0` is installed, a `bogus-nxdomain`
call whose tokens before index `k` (the list `pre`) are accepted and whose
token at index `k` (`bad`) parses neither as an address nor as a prefix
returns the error for `bad` and leaves a handle whose builders hold what they
held before followed by the ranges of the tokens of `pre` (the IPv4 ones in
the IPv4 builder, the IPv6 ones in the IPv6 builder): nothing of the tokens
after index `k` is added and nothing is rolled back.  The cached sets are
left as they were. -/
theorem C19_bogus_partial_application (env : Env) (m : Filter) (f0 : BogusNxDomain)
    (pre post : List String) (bad : String)
    (hm : m.BugosNxDomain = .bogus (some f0))
    (hpre : ∀ x ∈ pre, validToken env x = true)
    (hbad : unparsable env bad = true) :
    ∃ f : BogusNxDomain,
      m.AddCommand env "bogus-nxdomain" (pre ++ bad :: post)
          = .ret ({ m with BugosNxDomain := .bogus (some f) }, some (cannotParse bad))
      ∧ builderRanges f.ipv4Builder
          = builderRanges f0.ipv4Builder ++ pre.flatMap (tokenRangesV4 env)
      ∧ builderRanges f.ipv6Builder
          = builderRanges f0.ipv6Builder ++ pre.flatMap (tokenRangesV6 env)
      ∧ f.ipv4Set = f0.ipv4Set ∧ f.ipv6Set = f0.ipv6Set := by
  have hloop : addOptions env f0 (pre ++ bad :: post)
      = ((addOptions env f0 pre).1, some (cannotParse bad)) := by
    rw [addOptions_append_valid env pre (bad :: post) f0 hpre]
    simp only [addOptions, addOption_unparsable env _ bad hbad]
  have hr := addOptions_ranges env pre f0 hpre
  refine ⟨(addOptions env f0 pre).1, ?_, hr.1, hr.2.1, hr.2.2.1, hr.2.2.2⟩
  rw [bogus_dispatch]
  rcases m with ⟨next, P, B⟩
  simp only at hm
  subst hm
  have hlen : ¬ ((pre ++ bad :: post).length = 0) := by simp
  unfold Filter.AddBogusNxDomainHandler
  simp only [hlen, if_false, hloop]

/-- Witness of C19: the tokens `172.16.1.1`, `not-an-ip`, `10.0.0.1` on an
empty installed handle. -/
theorem C19_bogus_partial_application_witness :
    ∃ f : BogusNxDomain,
      emptyBogusFilter.AddCommand tableEnv "bogus-nxdomain"
          (["172.16.1.1"] ++ "not-an-ip" :: ["10.0.0.1"])
          = .ret ({ emptyBogusFilter with BugosNxDomain := .bogus (some f) },
              some (cannotParse "not-an-ip"))
      ∧ builderRanges f.ipv4Builder
          = builderRanges none ++ ["172.16.1.1"].flatMap (tokenRangesV4 tableEnv)
      ∧ builderRanges f.ipv6Builder
          = builderRanges none ++ ["172.16.1.1"].flatMap (tokenRangesV6 tableEnv)
      ∧ f.ipv4Set = none ∧ f.ipv6Set = none :=
  C19_bogus_partial_application tableEnv emptyBogusFilter ⟨none, none, none, none⟩
    ["172.16.1.1"] ["10.0.0.1"] "not-an-ip" rfl (by decide) (by decide)

/-- The error path on a handle already in place: on an empty handle, after
`bogus-nxdomain 172.16.1.1` and one `filter` call (which builds the sets), the
call `bogus-nxdomain 10.0.0.1 not-an-ip` adds `10.0.0.1` to the IPv4 builder
and returns the error for `not-an-ip` without clearing the cached sets: the
cached IPv4 set is non-nil, holds `172.16.1.1` only and differs from the set
of the builder, and the next `filter` call keeps the record `A 10.0.0.1`
although the set of the builder contains its address. -/
theorem planted_failed_call_leaves_stale_set (env : Env)
    (h1 : env.ParseAddr "172.16.1.1" = some (.v4 0xAC100101))
    (h2 : env.ParseAddr "10.0.0.1" = some (.v4 0x0A000001))
    (h3 : env.ParseAddr "not-an-ip" = none) (h4 : env.ParsePrefix "not-an-ip" = none) :
    ∃ f1 f3 : BogusNxDomain,
      emptyBogusFilter.AddCommand env "bogus-nxdomain" ["172.16.1.1"]
          = .ret ({ emptyBogusFilter with BugosNxDomain := .bogus (some f1) }, none)
      ∧ Filter.AddCommand env
            { emptyBogusFilter with
              BugosNxDomain := .bogus (some (f1.filter msg_10_0_0_1).2.2) }
            "bogus-nxdomain" ["10.0.0.1", "not-an-ip"]
          = .ret ({ emptyBogusFilter with BugosNxDomain := .bogus (some f3) },
              some (cannotParse "not-an-ip"))
      ∧ f3.ipv4Builder = some ⟨[range_172_16_1_1, range_10_0_0_1]⟩
      ∧ f3.ipv4Set = some ⟨[range_172_16_1_1]⟩
      ∧ f3.ipv4Set ≠ f3.ipv4Builder.map IPSetBuilder.IPSet
      ∧ inSet (f3.ipv4Builder.map IPSetBuilder.IPSet) (IPv4 10 0 0 1) = true
      ∧ (f3.filter msg_10_0_0_1).1 = false
      ∧ (f3.filter msg_10_0_0_1).2.1 = msg_10_0_0_1 := by
  refine ⟨⟨some ⟨[range_172_16_1_1]⟩, none, none, none⟩,
    ⟨some ⟨[range_172_16_1_1, range_10_0_0_1]⟩, none, some ⟨[range_172_16_1_1]⟩, none⟩,
    ?_, ?_, rfl, rfl, by decide, rfl, rfl, rfl⟩
  · rw [bogus_dispatch]
    simp only [Filter.AddBogusNxDomainHandler, emptyBogusFilter, addOptions, addOption, h1]
    rfl
  · rw [bogus_dispatch]
    simp only [Filter.AddBogusNxDomainHandler, emptyBogusFilter, addOptions, addOption, h2, h3,
      h4]
    rfl

/-- The same with a parser that knows `172.16.1.1` and `10.0.0.1`. -/
theorem planted_failed_call_leaves_stale_set_example :
    ∃ f1 f3 : BogusNxDomain,
      emptyBogusFilter.AddCommand tableEnv "bogus-nxdomain" ["172.16.1.1"]
          = .ret ({ emptyBogusFilter with BugosNxDomain := .bogus (some f1) }, none)
      ∧ Filter.AddCommand tableEnv
            { emptyBogusFilter with
              BugosNxDomain := .bogus (some (f1.filter msg_10_0_0_1).2.2) }
            "bogus-nxdomain" ["10.0.0.1", "not-an-ip"]
          = .ret ({ emptyBogusFilter with BugosNxDomain := .bogus (some f3) },
              some (cannotParse "not-an-ip"))
      ∧ f3.ipv4Builder = some ⟨[range_172_16_1_1, range_10_0_0_1]⟩
      ∧ f3.ipv4Set = some ⟨[range_172_16_1_1]⟩
      ∧ f3.ipv4Set ≠ f3.ipv4Builder.map IPSetBuilder.IPSet
      ∧ inSet (f3.ipv4Builder.map IPSetBuilder.IPSet) (IPv4 10 0 0 1) = true
      ∧ (f3.filter msg_10_0_0_1).1 = false
      ∧ (f3.filter msg_10_0_0_1).2.1 = msg_10_0_0_1 :=
  planted_failed_call_leaves_stale_set tableEnv rfl rfl rfl rfl

/-! ## States reachable from a fresh plugin -/

theorem addPrefer_bogus (env : Env) (m : Filter) (options : List String) :
    (m.AddPreferHandler env options).1.BugosNxDomain = m.BugosNxDomain := by
  unfold Filter.AddPreferHandler
  split
  · split
    · rfl
    · split
      · rfl
      · split <;> rfl
  · rfl

/-- An `AddCommand` call that returns, with or without an error, on a plugin
whose bogus slot is the nil interface leaves that slot the nil interface:
`prefer` does not touch it, and `bogus-nxdomain` returns only for an empty
token list. -/
theorem addCommand_keeps_bogus_nil (env : Env) (m m' : Filter) (cmd : String)
    (options : List String) (err : Option String) (hB : m.BugosNxDomain = .nil)
    (h : m.AddCommand env cmd options = .ret (m', err)) : m'.BugosNxDomain = .nil := by
  unfold Filter.AddCommand at h
  by_cases hp : ToLower env cmd = "prefer"
  · rw [if_pos hp] at h
    have h2 : m.AddPreferHandler env options = (m', err) := by
      injection h
    have h3 := addPrefer_bogus env m options
    rw [h2] at h3
    rw [h3, hB]
  · rw [if_neg hp] at h
    by_cases hb : ToLower env cmd = "bogus-nxdomain"
    · rw [if_pos hb] at h
      unfold Filter.AddBogusNxDomainHandler at h
      by_cases hl : options.length = 0
      · rw [if_pos hl] at h
        cases h
        exact hB
      · rw [if_neg hl, hB] at h
        cases h
    · rw [if_neg hb] at h
      cases h
      exact hB

/-- A `ServeDNS` call that returns leaves a nil bogus slot nil. -/
theorem serve_keeps_bogus_nil (m : Filter) (w : ResponseWriter) (r : Msg) (res : ServeResult)
    (hB : m.BugosNxDomain = .nil) (h : m.ServeDNS w r = .ret res) :
    res.m.BugosNxDomain = .nil := by
  rcases m with ⟨next, P, B⟩
  simp only at hB
  subst hB
  unfold Filter.ServeDNS at h
  rcases P with _ | _ | _ | (_ | f) <;>
    simp only [FilterHandler.isNil, FilterHandler.filter, Bool.and_self, Bool.and_true,
      Bool.false_and, Bool.not_true, Bool.not_false, if_true, if_false, Bool.false_eq_true] at h
  · cases h; rfl
  all_goals
    split at h
    · cases h; rfl
    · split at h
      · cases h; rfl
      · first
        | (split at h <;> cases h <;> rfl)
        | cases h

theorem step_keeps_bogus_nil (env : Env) (m m' : Filter) (s : Step)
    (hB : m.BugosNxDomain = .nil) (h : stepFilter env m s = .ret m') :
    m'.BugosNxDomain = .nil := by
  cases s with
  | command cmd options =>
    simp only [stepFilter] at h
    split at h
    · next m2 err hc =>
      cases h
      exact addCommand_keeps_bogus_nil env m _ cmd options err hB hc
    · cases h
  | setNext next =>
    simp only [stepFilter] at h
    cases h
    exact hB
  | serve w r =>
    simp only [stepFilter] at h
    split at h
    · next res hs =>
      cases h
      exact serve_keeps_bogus_nil m w r res hB hs
    · cases h
  | preferFilter r =>
    simp only [stepFilter] at h
    split at h
    · cases h
      exact hB
    · cases h
  | bogusFilter r =>
    simp only [stepFilter, hB, FilterHandler.filter] at h
    cases h

/-- Every sequence of steps that runs to the end from a plugin whose bogus
slot is the nil interface ends in such a plugin. -/
theorem run_keeps_bogus_nil (env : Env) (steps : List Step) (m m' : Filter)
    (hB : m.BugosNxDomain = .nil) (h : runSteps env m steps = .ret m') :
    m'.BugosNxDomain = .nil := by
  induction steps generalizing m with
  | nil =>
    simp only [runSteps] at h
    cases h
    exact hB
  | cons s rest ih =>
    simp only [runSteps] at h
    split at h
    · next m2 hs => exact ih m2 (step_keeps_bogus_nil env m m2 s hB hs) h
    · cases h

theorem cacheInvariant_of_bogus_nil (m : Filter) (hB : m.BugosNxDomain = .nil) :
    m.cacheInvariant = true := by
  unfold Filter.cacheInvariant
  rw [hB]

/-- C17: in every state `m` reached from a fresh plugin by a sequence of
`AddCommand` calls (returning an error or not), `ServeDNS` calls and `filter`
calls, the cache invariant holds: the handle in the bogus slot, if any, has
each cached set nil or equal to the set of its builder.  It holds because the
bogus slot of such a state is always the nil interface: from such a state
`bogus-nxdomain` with at least one token never returns (no call ever adds an
entry to a builder), every `AddCommand` call that returns leaves a state with
the invariant again, and so no `filter` call ever reads a cached set. -/
theorem C17_cache_invariant_reachable (env : Env) (steps : List Step) (m : Filter)
    (hrun : runSteps env NewFilterHandler steps = .ret m) :
    m.cacheInvariant = true
      ∧ m.BugosNxDomain = .nil
      ∧ (∀ (cmd : String) (options : List String) (m' : Filter) (err : Option String),
          m.AddCommand env cmd options = .ret (m', err) →
            m'.cacheInvariant = true ∧ m'.BugosNxDomain = .nil)
      ∧ (∀ (x : String) (xs : List String) (m' : Filter) (err : Option String),
          m.AddCommand env "bogus-nxdomain" (x :: xs) ≠ .ret (m', err)) := by
  have hB : m.BugosNxDomain = .nil := run_keeps_bogus_nil env steps NewFilterHandler m rfl hrun
  refine ⟨cacheInvariant_of_bogus_nil m hB, hB, ?_, ?_⟩
  · intro cmd options m' err h
    have hB' := addCommand_keeps_bogus_nil env m m' cmd options err hB h
    exact ⟨cacheInvariant_of_bogus_nil m' hB', hB'⟩
  · intro x xs m' err h
    rw [bogus_dispatch] at h
    unfold Filter.AddBogusNxDomainHandler at h
    simp only [List.length_cons, Nat.succ_ne_zero, if_false, hB] at h
    cases h

/-- Witness of C17: the state reached by `sampleSteps` (`prefer ipv4`,
`bogus-nxdomain` without tokens, a failing unknown command, the next handler
set, one request served). -/
theorem C17_cache_invariant_reachable_witness :
    runSteps plainEnv NewFilterHandler sampleSteps
        = .ret ⟨some (testHandler RcodeSuccess preferAnswers), .preferIPv4, .nil⟩
      ∧ Filter.cacheInvariant
          ⟨some (testHandler RcodeSuccess preferAnswers), .preferIPv4, .nil⟩ = true :=
  ⟨rfl,
    (C17_cache_invariant_reachable plainEnv sampleSteps
      ⟨some (testHandler RcodeSuccess preferAnswers), .preferIPv4, .nil⟩ rfl).1⟩

/-! ## The order of the two filters -/

/-- C20: the two filters do not commute.  With `prefer ipv4` and the bogus set
`172.16.1.1`, on the downstream answers `A 172.16.1.1` (in the bogus set) and
`AAAA 2606:4700:3034::ac43:dece` (not in it), `ServeDNS`, which applies the
preference filter and then the bogus filter, writes a message with no answer
and response code name-error; the bogus filter followed by the preference
filter gives the `AAAA` answer with the original response code. -/
theorem C20_filter_order_matters :
    (∃ res, orderPlugin.ServeDNS okSink testRequest = .ret res ∧
        res.w.written = [⟨RcodeNameError, [], [], []⟩])
      ∧ applyFilter orderPlugin.BugosNxDomain (applyFilter orderPlugin.Prefer orderMsg)
          = ⟨RcodeNameError, [], [], []⟩
      ∧ applyFilter orderPlugin.Prefer (applyFilter orderPlugin.BugosNxDomain orderMsg)
          = ⟨RcodeSuccess, [.AAAA "example.org." ip_2606_dece], [], []⟩
      ∧ bogusOneFilter.build.drops (.A "example.org." (IPv4 172 16 1 1)) = true
      ∧ bogusOneFilter.build.drops (.AAAA "example.org." ip_2606_dece) = false :=
  ⟨⟨_, rfl, rfl⟩, rfl, rfl, rfl, rfl⟩


end CorednsFilter
